import Mathlib

/-!
Verification development for the clawdbot-kakaotalk bridge.

Shallow embedding of the command-handler module (slash-command parsing,
the command table, the directive extractor), the Clawdbot gateway bridge
(`clawdbot-bridge.ts`) and the webhook server's dual delivery paths
(`webhook-server.ts`).  JavaScript strings are modelled as Lean `String`
(lists of characters); `async` functions become pure functions over an
explicit environment of oracles (process execution, HTTP fetch, the
session store), and thrown exceptions become `Except String` values
carrying the error's `message` text.
-/

namespace Clawdbot

/-! ## JavaScript string primitives -/

/-- JS `String.prototype.trim` on a character list: drop whitespace from both ends. -/
def trimChars (cs : List Char) : List Char :=
  ((cs.dropWhile Char.isWhitespace).reverse.dropWhile Char.isWhitespace).reverse

/-- JS `s.trim()`. -/
def jsTrim (s : String) : String :=
  String.mk (trimChars s.data)

/-- JS `s.toLowerCase()` (ASCII case folding, which covers every command token). -/
def jsToLower (s : String) : String :=
  String.mk (s.data.map Char.toLower)

/-- Contiguous-substring search on lists (the semantics of JS `includes`). -/
def listIsInfixOf [BEq α] (needle hay : List α) : Bool :=
  match hay with
  | [] => needle.isEmpty
  | _ :: t => needle.isPrefixOf hay || listIsInfixOf needle t

/-- JS `s.includes(sub)` : substring containment. -/
def strIncludes (s sub : String) : Bool :=
  listIsInfixOf sub.data s.data

/-- JS `s.startsWith(p)`. -/
def strStartsWith (s p : String) : Bool :=
  p.data.isPrefixOf s.data

/-- JS `s.split(/\s+/)`: split on maximal whitespace runs, keeping a leading or
trailing empty piece when the string starts or ends with whitespace.  The
recursion is driven by a fuel argument (initially the string length, which
always suffices because every step consumes at least one character) so that
the definition reduces by kernel evaluation. -/
def jsSplitWsGo (fuel : Nat) (cs : List Char) (cur : List Char) : List String :=
  match fuel, cs with
  | _, [] => [String.mk cur.reverse]
  | 0, rest => [String.mk (cur.reverse ++ rest)]
  | fuel + 1, c :: rest =>
    if c.isWhitespace then
      String.mk cur.reverse :: jsSplitWsGo fuel (rest.dropWhile Char.isWhitespace) []
    else
      jsSplitWsGo fuel rest (c :: cur)

/-- JS `s.split(/\s+/)`. -/
def jsSplitWs (s : String) : List String :=
  jsSplitWsGo s.data.length s.data []

/-! ## command-handler module: CLI execution -/

/-- Is a character accepted by the ANSI-escape regex body `[0-9;]`? -/
def isAnsiParam (c : Char) : Bool :=
  c.isDigit || c = ';'

/-- Core of `stripAnsi`: remove every match of `\x1B\[[0-9;]*[a-zA-Z]`
(scanning left to right, exactly as `String.prototype.replace` with a global
regex does).  Fuel-driven (the string length always suffices because every
step consumes at least one character) so that it reduces by kernel
evaluation. -/
def stripAnsiGo (fuel : Nat) (cs : List Char) : List Char :=
  match fuel, cs with
  | _, [] => []
  | 0, rest => rest
  | fuel + 1, '\x1B' :: '[' :: rest =>
    match rest.dropWhile isAnsiParam with
    | c :: tail =>
      if c.isAlpha then stripAnsiGo fuel tail
      else '\x1B' :: stripAnsiGo fuel ('[' :: rest)
    | [] => '\x1B' :: stripAnsiGo fuel ('[' :: rest)
  | fuel + 1, c :: rest => c :: stripAnsiGo fuel rest

/-- `stripAnsi`: removes ANSI escape codes (command-handler lines 22-24). -/
def stripAnsi (s : String) : String :=
  String.mk (stripAnsiGo s.data.length s.data)

/-- Outcome of one `execAsync` process invocation: either captured stdout and
stderr, or a rejection carrying the error's `message` and the partial
`error.stdout` (empty when none was captured). -/
inductive ExecOutcome where
  | ok (stdout stderr : String)
  | err (message : String) (stdout : String)

/-- The `clawdbot` section of the bridge configuration (`config.ts` is not part
of the analysed sources; fields are those the three source files read). -/
structure ClawdbotConfig where
  gatewayUrl : String
  gatewayToken : Option String
  model : Option String
  systemPrompt : Option String

/-- Environment of the command handler: the process-execution oracle plus the
configuration it interpolates into `/localstatus`. -/
structure CommandEnv where
  exec : String → ExecOutcome
  config : ClawdbotConfig

/-- `runCli` (command-handler lines 27-47): run a command line, return
`stripAnsi(stdout || stderr).trim()`; on a rejection, fall back to the
escape-stripped partial stdout when one was captured, otherwise re-raise. -/
def runCli (exec : String → ExecOutcome) (command : String) : Except String String :=
  match exec command with
  | .ok stdout stderr =>
    .ok (jsTrim (stripAnsi (if stdout ≠ "" then stdout else stderr)))
  | .err message stdout =>
    if stdout ≠ "" then .ok (jsTrim (stripAnsi stdout))
    else .error message

/-! ## command-handler module: data model -/

/-- A quick-reply button `{label, message}`. -/
structure QuickReply where
  label : String
  message : String
deriving DecidableEq, Repr

/-- `CommandResult` (command-handler lines 14-19). -/
structure CommandResult where
  handled : Bool
  response : Option String := none
  sessionReset : Option Bool := none
  quickReplies : Option (List QuickReply) := none
deriving DecidableEq, Repr

/-- `QUICK_COMMANDS` (command-handler lines 57-65). -/
def QUICK_COMMANDS : List QuickReply :=
  [ { label := "📊 상태", message := "/status" },
    { label := "❓ 도움말", message := "/help" },
    { label := "🤖 모델", message := "/model" },
    { label := "🔄 초기화", message := "/clear" },
    { label := "🧠 추론", message := "/think" },
    { label := "💡 사용량", message := "/usage" },
    { label := "📝 명령어 전체", message := "/commands" } ]

/-- `CommandMapping` (command-handler lines 50-54): exactly one of `cli` /
`handler` is populated per table entry. -/
structure CommandMapping where
  cli : Option String := none
  handler : Option (CommandEnv → String → String → Except String String) := none
  description : String

/-- Modelled from the spec: the conversation store's clear-history operation
(`session-manager.ts` is not part of the analysed sources).  It is a pure
side effect returning nothing, so it is a no-op here. -/
def clearConversationHistory (_sessionKey : String) : Unit := ()

/-- JS `a || b` for an optional string: the default replaces both a missing and
an empty value. -/
def jsOrDefault (o : Option String) (d : String) : String :=
  match o with
  | some s => if s = "" then d else s
  | none => d

/-! ## command-handler module: the handler closures of `COMMANDS` -/

/-- Accepted `/think` levels (command-handler line 150). -/
def thinkLevels : List String :=
  ["off", "minimal", "low", "medium", "high", "xhigh"]

/-- Accepted `/verbose` modes (line 175). -/
def verboseModes : List String :=
  ["on", "full", "off"]

/-- Accepted `/reasoning` modes (line 192). -/
def reasoningModes : List String :=
  ["on", "off", "stream"]

/-- Accepted `/elevated` modes (line 211). -/
def elevatedModes : List String :=
  ["on", "off", "ask", "full"]

/-- `/tts` option list (line 230); note the handler never validates against it. -/
def ttsModes : List String :=
  ["off", "always", "inbound", "tagged", "status", "provider", "limit", "summary", "audio"]

/-- `COMMANDS["/model"].handler` (lines 106-115). -/
def modelHandler (env : CommandEnv) (args : String) : Except String String :=
  if args = "" ∨ args = "list" then runCli env.exec "clawdbot model list"
  else if args = "status" then runCli env.exec "clawdbot model status"
  else runCli env.exec ("clawdbot model set " ++ args)

/-- `COMMANDS["/reset"].handler` (lines 125-128). -/
def resetHandler (_args sessionKey : String) : Except String String :=
  let _ := clearConversationHistory sessionKey
  .ok "🔄 대화를 초기화했습니다. 새로운 대화를 시작하세요!"

/-- `COMMANDS["/clear"].handler` (lines 136-139). -/
def clearHandler (_args sessionKey : String) : Except String String :=
  let _ := clearConversationHistory sessionKey
  .ok "✅ 대화 기록이 초기화되었습니다."

/-- `COMMANDS["/think"].handler` (lines 149-160). -/
def thinkHandler (args : String) : Except String String :=
  let levels := thinkLevels
  if args = "" then
    .ok ("🧠 생각 모드 설정\n\n사용법: /think <레벨>\n레벨: " ++
      String.intercalate ", " levels ++ "\n\n예시: /think high")
  else
    let level := jsToLower args
    if levels.contains level = false then
      .ok ("❌ 잘못된 레벨입니다.\n사용 가능: " ++ String.intercalate ", " levels)
    else
      .ok ("🧠 생각 모드: " ++ level ++ "\n\n다음 메시지부터 적용됩니다.")

/-- `COMMANDS["/verbose"].handler` (lines 174-183). -/
def verboseHandler (args : String) : Except String String :=
  let modes := verboseModes
  if args = "" then
    .ok "📝 상세 모드 설정\n\n사용법: /verbose <on|full|off>"
  else if modes.contains (jsToLower args) = false then
    .ok ("❌ 잘못된 옵션입니다.\n사용 가능: " ++ String.intercalate ", " modes)
  else
    .ok ("📝 상세 모드: " ++ args ++ "\n\n다음 메시지부터 적용됩니다.")

/-- `COMMANDS["/reasoning"].handler` (lines 191-200). -/
def reasoningHandler (args : String) : Except String String :=
  let modes := reasoningModes
  if args = "" then
    .ok "💭 추론 표시 설정\n\n사용법: /reasoning <on|off|stream>"
  else if modes.contains (jsToLower args) = false then
    .ok ("❌ 잘못된 옵션입니다.\n사용 가능: " ++ String.intercalate ", " modes)
  else
    .ok ("💭 추론 모드: " ++ args ++ "\n\n다음 메시지부터 적용됩니다.")

/-- `COMMANDS["/elevated"].handler` (lines 210-219). -/
def elevatedHandler (args : String) : Except String String :=
  let modes := elevatedModes
  if args = "" then
    .ok "🔐 권한 상승 설정\n\n사용법: /elevated <on|off|ask|full>"
  else if modes.contains (jsToLower args) = false then
    .ok ("❌ 잘못된 옵션입니다.\n사용 가능: " ++ String.intercalate ", " modes)
  else
    .ok ("🔐 권한 모드: " ++ args ++ "\n\n다음 메시지부터 적용됩니다.")

/-- `COMMANDS["/tts"].handler` (lines 229-235): usage on empty arguments, and
an unconditional acknowledgement for every non-empty argument. -/
def ttsHandler (args : String) : Except String String :=
  let modes := ttsModes
  if args = "" then
    .ok ("🔊 TTS 설정\n\n사용법: /tts <옵션>\n옵션: " ++ String.intercalate ", " modes)
  else
    .ok ("🔊 TTS: " ++ args ++ "\n\n다음 메시지부터 적용됩니다.")

/-- `COMMANDS["/skill"].handler` (lines 241-248). -/
def skillHandler (env : CommandEnv) (args : String) : Except String String :=
  if args = "" then runCli env.exec "clawdbot skill list"
  else
    let parts := args.splitOn " "
    let skillName := parts.headD ""
    let input := String.intercalate " " parts.tail
    runCli env.exec ("clawdbot skill run " ++ skillName ++
      (if input ≠ "" then " \"" ++ input ++ "\"" else ""))

/-- `COMMANDS["/localstatus"].handler` (lines 260-268). -/
def localstatusHandler (env : CommandEnv) : Except String String :=
  .ok ("🦞 카카오톡 브릿지 상태\n\n✅ 서버: 정상\n📍 Gateway: " ++
    env.config.gatewayUrl ++ "\n🤖 모델: " ++ jsOrDefault env.config.model "기본값" ++
    "\n\n💡 Clawdbot 전체 상태는 /status 로 확인하세요.")

/-! ## command-handler module: the command table

In the source, each `COMMANDS` entry carries its `description` inline and
`getCommandList` reads those fields back out of `COMMANDS`, while the
`/commands` handler calls `getCommandList` — a benign definitional cycle
through late binding.  Here the description strings live in
`commandDescriptions` (the single source of truth) and both `COMMANDS` and
`getCommandList` read from it, which breaks the cycle without changing any
observable value. -/

/-- The `description` field of every `COMMANDS` entry, in table order. -/
def commandDescriptions : List (String × String) :=
  [ ("/", "명령어 목록 선택"),
    ("/status", "시스템 상태 확인"),
    ("/help", "도움말 표시"),
    ("/commands", "명령어 목록"),
    ("/whoami", "내 정보 확인"),
    ("/id", "/whoami 별칭"),
    ("/context", "컨텍스트 정보"),
    ("/usage", "사용량 확인"),
    ("/model", "모델 선택/목록"),
    ("/models", "/model 별칭"),
    ("/reset", "대화 초기화"),
    ("/new", "/reset 별칭"),
    ("/clear", "대화 기록 초기화"),
    ("/stop", "현재 작업 중지"),
    ("/think", "생각 모드 (off/low/medium/high)"),
    ("/thinking", "/think 별칭"),
    ("/t", "/think 별칭"),
    ("/verbose", "상세 출력 모드"),
    ("/v", "/verbose 별칭"),
    ("/reasoning", "추론 표시 모드"),
    ("/reason", "/reasoning 별칭"),
    ("/elevated", "권한 상승 모드"),
    ("/elev", "/elevated 별칭"),
    ("/tts", "음성 합성 설정"),
    ("/skill", "스킬 실행"),
    ("/subagents", "서브에이전트 목록"),
    ("/localstatus", "브릿지 상태 (로컬)") ]

/-- Look up a command's description. -/
def descriptionOf (cmd : String) : Option String :=
  (commandDescriptions.find? (fun p => p.1 == cmd)).map (fun p => p.2)

/-- Description with the empty-string default used when building table entries. -/
def descD (cmd : String) : String :=
  (descriptionOf cmd).getD ""

/-- `getHelpText` (command-handler lines 276-308). -/
def getHelpText : String :=
  "🦞 Clawdbot 카카오톡 도움말\n\n📌 기본 명령어\n/help - 도움말 표시\n/status - 시스템 상태\n/commands - 전체 명령어 목록\n\n📌 세션 관리\n/reset - 새 대화 시작\n/clear - 대화 기록 초기화\n/stop - 현재 작업 중지\n\n📌 모델 설정\n/model - 모델 목록\n/model <이름> - 모델 변경\n/model status - 모델 상태\n\n📌 추론/사고 설정\n/think <레벨> - 사고 깊이 (off/low/medium/high)\n/verbose <on/off> - 상세 모드\n/reasoning <on/off> - 추론 표시\n\n📌 기타\n/usage - 사용량 확인\n/whoami - 내 정보\n/skill <이름> - 스킬 실행\n\n💡 예시\n\"안녕하세요\" - 일반 대화\n\"/model opus\" - 모델 변경\n\"/think high 복잡한 문제 분석해줘\" - 깊은 사고로 분석"

/-- The category layout of `getCommandList` (lines 314-319). -/
def commandCategories : List (String × List String) :=
  [ ("📊 상태/정보", ["/status", "/help", "/commands", "/whoami", "/context", "/usage"]),
    ("🤖 모델/설정", ["/model", "/think", "/verbose", "/reasoning", "/elevated"]),
    ("💬 세션 관리", ["/reset", "/clear", "/stop"]),
    ("🔧 기타", ["/tts", "/skill", "/subagents", "/localstatus"]) ]

/-- `getCommandList` (lines 313-335). -/
def getCommandList : String :=
  let start := "🦞 Clawdbot 명령어 목록\n\n"
  let result := commandCategories.foldl (fun acc cat =>
    let acc := acc ++ cat.1 ++ "\n"
    let acc := cat.2.foldl (fun acc cmd =>
      match descriptionOf cmd with
      | some d => acc ++ "  " ++ cmd ++ " - " ++ d ++ "\n"
      | none => acc) acc
    acc ++ "\n") start
  jsTrim result

/-- `COMMANDS` (lines 67-271) as an association list in source order.  Alias
entries invoke the canonical entry's handler with the same arguments by
referring to the same named function. -/
def COMMANDS : List (String × CommandMapping) :=
  [ ("/", { handler := some (fun _ _ _ => .ok "🦞 명령어를 선택하세요!"), description := descD "/" }),
    ("/status", { cli := some "clawdbot status", description := descD "/status" }),
    ("/help", { handler := some (fun _ _ _ => .ok getHelpText), description := descD "/help" }),
    ("/commands", { handler := some (fun _ _ _ => .ok getCommandList), description := descD "/commands" }),
    ("/whoami", { cli := some "clawdbot whoami", description := descD "/whoami" }),
    ("/id", { cli := some "clawdbot whoami", description := descD "/id" }),
    ("/context", { cli := some "clawdbot context", description := descD "/context" }),
    ("/usage", { cli := some "clawdbot usage", description := descD "/usage" }),
    ("/model", { handler := some (fun env args _ => modelHandler env args), description := descD "/model" }),
    ("/models", { handler := some (fun env args _ => modelHandler env args), description := descD "/models" }),
    ("/reset", { handler := some (fun _ args sk => resetHandler args sk), description := descD "/reset" }),
    ("/new", { handler := some (fun _ args sk => resetHandler args sk), description := descD "/new" }),
    ("/clear", { handler := some (fun _ args sk => clearHandler args sk), description := descD "/clear" }),
    ("/stop", { cli := some "clawdbot stop", description := descD "/stop" }),
    ("/think", { handler := some (fun _ args _ => thinkHandler args), description := descD "/think" }),
    ("/thinking", { handler := some (fun _ args _ => thinkHandler args), description := descD "/thinking" }),
    ("/t", { handler := some (fun _ args _ => thinkHandler args), description := descD "/t" }),
    ("/verbose", { handler := some (fun _ args _ => verboseHandler args), description := descD "/verbose" }),
    ("/v", { handler := some (fun _ args _ => verboseHandler args), description := descD "/v" }),
    ("/reasoning", { handler := some (fun _ args _ => reasoningHandler args), description := descD "/reasoning" }),
    ("/reason", { handler := some (fun _ args _ => reasoningHandler args), description := descD "/reason" }),
    ("/elevated", { handler := some (fun _ args _ => elevatedHandler args), description := descD "/elevated" }),
    ("/elev", { handler := some (fun _ args _ => elevatedHandler args), description := descD "/elev" }),
    ("/tts", { handler := some (fun _ args _ => ttsHandler args), description := descD "/tts" }),
    ("/skill", { handler := some (fun env args _ => skillHandler env args), description := descD "/skill" }),
    ("/subagents", { cli := some "clawdbot sessions list --kind subagent", description := descD "/subagents" }),
    ("/localstatus", { handler := some (fun env _ _ => localstatusHandler env), description := descD "/localstatus" }) ]

/-- Exact key lookup in the command table (`COMMANDS[command]`). -/
def lookupCommand (command : String) : Option CommandMapping :=
  (COMMANDS.find? (fun p => p.1 == command)).map (fun p => p.2)

/-! ## command-handler module: parsing and the main handler -/

/-- `isCommand` (lines 340-342): the trimmed message starts with the marker. -/
def isCommand (message : String) : Bool :=
  strStartsWith (jsTrim message) "/"

/-- A parsed `(command, args)` pair. -/
structure ParsedCommand where
  command : String
  args : String
deriving DecidableEq, Repr

/-- Word characters of the regex class `\w`. -/
def isWordChar (c : Char) : Bool :=
  c.isAlphanum || c = '_'

/-- Characters matched by the regex `.` (everything except line terminators). -/
def jsDotChar (c : Char) : Bool :=
  !(c = '\n' || c = '\r' || c = Char.ofNat 0x2028 || c = Char.ofNat 0x2029)

/-- `parseCommand` (lines 347-355): match the trimmed input against
`^(\/\w+):?\s*(.*)`; on a match the command token is lower-cased and the
captured remainder (up to the end of the line) trimmed; otherwise the whole
trimmed message, lower-cased, is the command and the arguments are empty. -/
def parseCommand (message : String) : ParsedCommand :=
  let trimmed := jsTrim message
  match trimmed.data with
  | '/' :: rest =>
    let word := rest.takeWhile isWordChar
    if word.isEmpty then { command := jsToLower trimmed, args := "" }
    else
      let afterWord := rest.dropWhile isWordChar
      let afterColon :=
        match afterWord with
        | ':' :: t => t
        | other => other
      let argChars := (afterColon.dropWhile Char.isWhitespace).takeWhile jsDotChar
      { command := jsToLower (String.mk ('/' :: word)), args := jsTrim (String.mk argChars) }
  | _ => { command := jsToLower trimmed, args := "" }

/-- The "command not recognized" substrings checked at lines 408-410. -/
def notRecognizedError (msg : String) : Bool :=
  strIncludes msg "not recognized" || strIncludes msg "unknown" || strIncludes msg "is not"

/-- The fixed acknowledgement substituted for an empty response (line 420). -/
def ackText : String :=
  "✅ 명령어가 실행되었습니다."

/-- The prefix of the user-visible execution-error response (line 433). -/
def errTextPre : String :=
  "❌ 명령어 실행 중 오류가 발생했습니다.\n\n"

/-- The external command synthesized for an unregistered token (lines 398-399):
the marker is stripped and the CLI program name prefixed, the arguments
appended only when non-empty. -/
def synthCliCommand (command args : String) : String :=
  let cliCommand := command.drop 1
  if args ≠ "" then "clawdbot " ++ cliCommand ++ " " ++ args
  else "clawdbot " ++ cliCommand

/-- `handleCommand` (lines 360-436). -/
def handleCommand (env : CommandEnv) (message sessionKey : String) : CommandResult :=
  if isCommand message = false then { handled := false }
  else
    let pc := parseCommand message
    let command := pc.command
    let args := pc.args
    if command = "/pair" then { handled := false }
    else
      let cmdInfo := lookupCommand command
      let attempt : Except String (Option String) :=
        match cmdInfo with
        | some info =>
          Except.map some
            (match info.handler with
             | some h => h env args sessionKey
             | none =>
               match info.cli with
               | some cli =>
                 runCli env.exec (if args ≠ "" then cli ++ " " ++ args else cli)
               | none => .ok "이 명령어는 아직 구현되지 않았습니다.")
        | none =>
          match runCli env.exec (synthCliCommand command args) with
          | .ok out => .ok (some out)
          | .error msg =>
            if notRecognizedError msg then .ok none
            else .error msg
      match attempt with
      | .ok none => { handled := false }
      | .ok (some response0) =>
        let response := if response0 = "" ∨ jsTrim response0 = "" then ackText else response0
        if command = "/" then
          { handled := true, response := some response, quickReplies := some QUICK_COMMANDS }
        else { handled := true, response := some response }
      | .error msg => { handled := true, response := some (errTextPre ++ msg) }

/-! ## command-handler module: directive extraction

The six patterns of `extractDirectives` (lines 446-453) are anchored,
case-insensitive regexes.  Each is embedded as a matcher that, applied to the
character list of the current remainder, returns the suffix left after the
matched prefix (`match[0]`), or `none` when the regex does not match.
Alternation is ordered with backtracking, exactly as the regex engine
resolves `(think|thinking|t)` and the level groups. -/

/-- Strip a concrete word case-insensitively (a regex literal under the `i`
flag). -/
def ciStrip (w : List Char) (cs : List Char) : Option (List Char) :=
  match w, cs with
  | [], rest => some rest
  | _ :: _, [] => none
  | a :: ws, c :: rest =>
    if c.toLower == a.toLower then ciStrip ws rest else none

/-- `\s+`: at least one whitespace character, consumed greedily; greediness is
exact here because no following pattern element can match whitespace. -/
def wsPlus (cs : List Char) : Option (List Char) :=
  match cs with
  | c :: rest => if c.isWhitespace then some (rest.dropWhile Char.isWhitespace) else none
  | [] => none

/-- `\S+` / `[^\s]+`: at least one non-whitespace character, consumed greedily. -/
def nonWsPlus (cs : List Char) : Option (List Char) :=
  match cs with
  | c :: rest =>
    if c.isWhitespace then none
    else some (rest.dropWhile (fun d => !d.isWhitespace))
  | [] => none

/-- Ordered alternation `(w₁|w₂|…)` followed by the continuation `k`, with the
regex engine's backtracking: a later alternative is tried when an earlier one
fails either directly or through its continuation. -/
def altCI (alts : List String) (cs : List Char) (k : List Char → Option (List Char)) :
    Option (List Char) :=
  match alts with
  | [] => none
  | a :: rest =>
    match ciStrip a.data cs with
    | some cs1 =>
      match k cs1 with
      | some out => some out
      | none => altCI rest cs k
    | none => altCI rest cs k

/-- `^\/(think|thinking|t)\s+(off|minimal|low|medium|high|xhigh)\s+/i`. -/
def matchThink (cs : List Char) : Option (List Char) :=
  match cs with
  | '/' :: rest =>
    altCI ["think", "thinking", "t"] rest (fun r =>
      match wsPlus r with
      | some r1 => altCI thinkLevels r1 wsPlus
      | none => none)
  | _ => none

/-- `^\/(verbose|v)\s+(on|full|off)\s+/i`. -/
def matchVerbose (cs : List Char) : Option (List Char) :=
  match cs with
  | '/' :: rest =>
    altCI ["verbose", "v"] rest (fun r =>
      match wsPlus r with
      | some r1 => altCI verboseModes r1 wsPlus
      | none => none)
  | _ => none

/-- `^\/(reasoning|reason)\s+(on|off|stream)\s+/i`. -/
def matchReasoning (cs : List Char) : Option (List Char) :=
  match cs with
  | '/' :: rest =>
    altCI ["reasoning", "reason"] rest (fun r =>
      match wsPlus r with
      | some r1 => altCI reasoningModes r1 wsPlus
      | none => none)
  | _ => none

/-- `^\/(elevated|elev)\s+(on|off|ask|full)\s+/i`. -/
def matchElevated (cs : List Char) : Option (List Char) :=
  match cs with
  | '/' :: rest =>
    altCI ["elevated", "elev"] rest (fun r =>
      match wsPlus r with
      | some r1 => altCI elevatedModes r1 wsPlus
      | none => none)
  | _ => none

/-- `^\/model\s+(\S+)\s+/i`. -/
def matchModel (cs : List Char) : Option (List Char) :=
  match cs with
  | '/' :: rest =>
    match ciStrip "model".data rest with
    | some r =>
      match wsPlus r with
      | some r1 =>
        match nonWsPlus r1 with
        | some r2 => wsPlus r2
        | none => none
      | none => none
    | none => none
  | _ => none

/-- `^\/(exec)\s+[^\s]+\s+/i`. -/
def matchExec (cs : List Char) : Option (List Char) :=
  match cs with
  | '/' :: rest =>
    match ciStrip "exec".data rest with
    | some r =>
      match wsPlus r with
      | some r1 =>
        match nonWsPlus r1 with
        | some r2 => wsPlus r2
        | none => none
      | none => none
    | none => none
  | _ => none

/-- `directivePatterns` (lines 446-453) in source order. -/
def directivePatterns : List (List Char → Option (List Char)) :=
  [matchThink, matchVerbose, matchReasoning, matchElevated, matchModel, matchExec]

/-- The result of `extractDirectives`. -/
structure DirectiveResult where
  directives : List String
  cleanMessage : String
deriving DecidableEq, Repr

/-- One iteration of the loop at lines 458-464: when the pattern matches the
head of the current remainder, push the matched text trimmed and continue with
the remainder stripped of the match and trimmed. -/
def applyDirectivePattern (acc : List String × String)
    (pat : List Char → Option (List Char)) : List String × String :=
  let cs := acc.2.data
  match pat cs with
  | some rest =>
    let matched := cs.take (cs.length - rest.length)
    (acc.1 ++ [jsTrim (String.mk matched)], jsTrim (String.mk rest))
  | none => acc

/-- `extractDirectives` (lines 442-467). -/
def extractDirectives (message : String) : DirectiveResult :=
  let r := directivePatterns.foldl applyDirectivePattern ([], message)
  { directives := r.1, cleanMessage := r.2 }

/-! ## clawdbot-bridge module -/

/-- A stored conversation turn (field shapes from `types.ts`, which only the
bridge reads; modelled from the spec's conversation-store interface). -/
structure ConversationMessage where
  role : String
  content : String
deriving DecidableEq, Repr

/-- `ChatCompletionMessage` (clawdbot-bridge lines 11-14). -/
structure ChatCompletionMessage where
  role : String
  content : String
deriving DecidableEq, Repr

/-- `ChatCompletionRequest` (lines 16-21). -/
structure ChatCompletionRequest where
  model : Option String := none
  messages : List ChatCompletionMessage
  stream : Option Bool := none
  max_tokens : Option Nat := none
deriving DecidableEq, Repr

/-- The `message` part of a `choices` entry (lines 30-33). -/
structure ChoiceMessage where
  role : String
  content : String
deriving DecidableEq, Repr

/-- One `choices` entry of `ChatCompletionResponse` (lines 28-35). -/
structure Choice where
  index : Nat
  message : ChoiceMessage
  finish_reason : String
deriving DecidableEq, Repr

/-- The `usage` block of `ChatCompletionResponse` (lines 36-40). -/
structure Usage where
  prompt_tokens : Nat
  completion_tokens : Nat
  total_tokens : Nat
deriving DecidableEq, Repr

/-- `ChatCompletionResponse` (lines 23-41). -/
structure ChatCompletionResponse where
  id : String
  object : String
  created : Nat
  model : String
  choices : List Choice
  usage : Option Usage := none
deriving DecidableEq, Repr

/-- The metadata attached to a bridge reply (shape from `types.ts`, which is
not among the analysed sources; fields are the two the bridge writes).
Wall-clock timing is not modelled, so `processingTime` carries the literal
the code writes where that literal is fixed and `0` elsewhere. -/
structure ResponseMetadata where
  toolsUsed : Option (List String) := none
  processingTime : Option Nat := none
deriving DecidableEq, Repr

/-- `ClawdbotResponse`: the bridge's reply value `{text, metadata}`. -/
structure ClawdbotResponse where
  text : String
  metadata : Option ResponseMetadata := none
deriving DecidableEq, Repr

/-- Outcome of one `fetch` of the chat-completion endpoint: a rejection
(network error, timeout, or a body that fails to parse) carrying the string
form of the error, or an HTTP response with its status and parsed body. -/
inductive FetchOutcome where
  | thrown (error : String)
  | response (status : Nat) (body : ChatCompletionResponse)

/-- Environment of the bridge: the HTTP oracle plus the configuration. -/
structure BridgeEnv where
  fetchChat : ChatCompletionRequest → FetchOutcome
  config : ClawdbotConfig

/-- The fallback text used when `choices[0]?.message?.content` is missing or
empty (line 121). -/
def noReplyText : String :=
  "응답을 받지 못했습니다."

/-- `askClawdbotGateway` (clawdbot-bridge lines 46-133): build the message
array (system prompt if configured, the last 10 history turns, then the user
message), POST it, and either return the reply text or raise: a `fetch`
rejection is re-thrown as its error string, a non-2xx status as
`Gateway API error: <status>`. -/
def askClawdbotGateway (env : BridgeEnv) (message _sessionKey : String)
    (conversationHistory : List ConversationMessage) : Except String ClawdbotResponse :=
  let systemMessages : List ChatCompletionMessage :=
    match env.config.systemPrompt with
    | some sp => [{ role := "system", content := sp }]
    | none => []
  let recentHistory := conversationHistory.drop (conversationHistory.length - 10)
  let messages := systemMessages ++
    recentHistory.map (fun m => { role := m.role, content := m.content }) ++
    [{ role := "user", content := message }]
  let requestBody : ChatCompletionRequest :=
    { model := env.config.model, messages := messages, stream := some false }
  match env.fetchChat requestBody with
  | .thrown e => .error e
  | .response status body =>
    if !(200 ≤ status ∧ status < 300) then
      .error ("Gateway API error: " ++ toString status)
    else
      let responseText :=
        match body.choices.head? with
        | some c => if c.message.content = "" then noReplyText else c.message.content
        | none => noReplyText
      .ok { text := responseText, metadata := some { processingTime := some 0 } }

/-- The timeout-specific fallback text (clawdbot-bridge line 160). -/
def timeoutFallbackText : String :=
  "⏳ 응답 생성에 시간이 걸리고 있어요. 잠시 후 다시 시도하거나, 더 간단한 질문을 해주세요!"

/-- The generic fallback text (clawdbot-bridge line 161). -/
def genericFallbackText : String :=
  "죄송합니다. AI 처리 중 오류가 발생했습니다. 잠시 후 다시 시도해주세요."

/-- `askClawdbot` (clawdbot-bridge lines 141-168): delegate to the gateway
call and recover every failure with a canned fallback, choosing the
timeout-specific text when the error's string form contains a timeout
indicator. -/
def askClawdbot (env : BridgeEnv) (message sessionKey : String)
    (conversationHistory : List ConversationMessage) : ClawdbotResponse :=
  match askClawdbotGateway env message sessionKey conversationHistory with
  | .ok r => r
  | .error error =>
    let errorMessage := error
    let isTimeout := strIncludes errorMessage "timeout" || strIncludes errorMessage "ETIMEDOUT"
    { text := if isTimeout then timeoutFallbackText else genericFallbackText,
      metadata := some { toolsUsed := some [], processingTime := some 0 } }

/-! ## webhook-server module

`kakao-api.ts` and `session-manager.ts` are not among the analysed sources;
their operations appear as the response-envelope constructors below
(modelled from the spec's envelope-builder interface) and as oracles in
`WebhookEnv` (the identity/pairing store and the conversation store).
Conversation-store appends are external side effects with no return value
and are not tracked; the history oracle supplies what `getConversationHistory`
returns. -/

/-- Modelled from the spec: the platform response envelope, reduced to the
delivered text plus the optional quick-reply buttons. -/
structure KakaoSkillResponse where
  text : String
  quickReplies : List QuickReply := []
deriving DecidableEq, Repr

/-- Modelled from the spec: `createTextResponse` wraps plain text in the
platform envelope. -/
def createTextResponse (text : String) : KakaoSkillResponse :=
  { text := text }

/-- Modelled from the spec: `addQuickReplies` attaches quick-reply buttons. -/
def addQuickReplies (r : KakaoSkillResponse) (qs : List QuickReply) : KakaoSkillResponse :=
  { r with quickReplies := qs }

/-- Modelled from the spec: result of `verifyPairingCode` — success flag plus
message. -/
structure PairingResult where
  success : Bool
  message : String
deriving DecidableEq, Repr

/-- Environment of the webhook handlers: the command/bridge environments plus
the identity and conversation stores. -/
structure WebhookEnv where
  cmdEnv : CommandEnv
  bridgeEnv : BridgeEnv
  isUserVerified : String → Bool
  verifyPairingCode : String → String → Option String → PairingResult
  getConversationHistory : String → List ConversationMessage

/-- The pairing usage text (webhook-server lines 96 and 220). -/
def pairUsageText : String :=
  "📝 Pairing 사용법\n\n/pair [인증코드] [이름]\n\n예시:\n/pair myCode\n/pair myCode 홍길동"

/-- `handleWithoutCallback` (webhook-server lines 84-134): the synchronous
path.  The pairing branch fires exactly on the raw, untrimmed, lower-cased
utterance starting with "/pair"; then the verification gate; then command
handling with fall-through to the chat backend. -/
def handleWithoutCallback (env : WebhookEnv) (kakaoId utterance : String) :
    KakaoSkillResponse :=
  if strStartsWith (jsToLower utterance) "/pair" then
    let parts := jsSplitWs utterance
    let code := parts[1]?
    let nameJoined := String.intercalate " " (parts.drop 2)
    let name := if nameJoined = "" then none else some nameJoined
    match code with
    | none => createTextResponse pairUsageText
    | some c =>
      if c = "" then createTextResponse pairUsageText
      else
        let result := env.verifyPairingCode kakaoId c name
        createTextResponse (if result.success then result.message else "❌ " ++ result.message)
  else if env.isUserVerified kakaoId = false then
    createTextResponse "🔐 인증이 필요합니다.\n\n\"/pair [인증코드]\" 또는 \"/pair [인증코드] [이름]\"을 입력해주세요."
  else
    let chat : KakaoSkillResponse :=
      let history := env.getConversationHistory kakaoId
      let response := askClawdbot env.bridgeEnv utterance kakaoId history
      createTextResponse response.text
    if isCommand utterance then
      let commandResult := handleCommand env.cmdEnv utterance kakaoId
      match commandResult.response with
      | some resp =>
        if commandResult.handled && resp ≠ "" then
          let response := createTextResponse resp
          match commandResult.quickReplies with
          | some qs => addQuickReplies response qs
          | none => response
        else chat
      | none => chat
    else chat

/-- A callback delivery: the POSTed text plus quick replies (empty when the
call passes none). -/
inductive Delivery where
  | callback (text : String) (quickReplies : List QuickReply)
deriving DecidableEq, Repr

/-- `handlePairingCommand` (webhook-server lines 207-237). -/
def handlePairingCommand (env : WebhookEnv) (kakaoId utterance : String) : Delivery :=
  let parts := jsSplitWs utterance
  let code := parts[1]?
  let nameJoined := String.intercalate " " (parts.drop 2)
  let name := if nameJoined = "" then none else some nameJoined
  match code with
  | none => .callback pairUsageText []
  | some c =>
    if c = "" then .callback pairUsageText []
    else
      let result := env.verifyPairingCode kakaoId c name
      if result.success then
        .callback result.message
          [{ label := "시작하기", message := "안녕하세요!" }, { label := "도움말", message := "/help" }]
      else .callback ("❌ " ++ result.message) []

/-- `processMessageAsync` (webhook-server lines 139-202): the asynchronous
path, delivering through the callback POST.  The outermost catch that turns
an escaped exception into an error callback has no reachable throw site in
this embedding (every failure is already converted to a value) and is
therefore not represented. -/
def processMessageAsync (env : WebhookEnv) (kakaoId utterance : String) : Delivery :=
  if strStartsWith (jsToLower utterance) "/pair" then
    handlePairingCommand env kakaoId utterance
  else if env.isUserVerified kakaoId = false then
    .callback "🔐 인증이 필요합니다.\n\n\"/pair [인증코드]\"를 입력해주세요.\n예: /pair mySecretCode 홍길동"
      [{ label := "인증 방법", message := "/help pair" }]
  else
    let chat : Delivery :=
      let history := env.getConversationHistory kakaoId
      let response := askClawdbot env.bridgeEnv utterance kakaoId history
      .callback response.text
        [{ label := "계속", message := "계속해주세요" }, { label := "새 주제", message := "/clear" }]
    if isCommand utterance then
      let commandResult := handleCommand env.cmdEnv utterance kakaoId
      match commandResult.response with
      | some resp =>
        if commandResult.handled && resp ≠ "" then
          let quickReplies :=
            match commandResult.quickReplies with
            | some qs => qs
            | none =>
              if strStartsWith (jsToLower utterance) "/clear" then
                [{ label := "새 대화 시작", message := "안녕하세요" }]
              else
                [{ label := "도움말", message := "/help" }, { label := "상태", message := "/status" }]
          .callback resp quickReplies
        else chat
      | none => chat
    else chat

/-! ## Concrete environments used by the witnesses -/

/-- A configuration instance used by the concrete witnesses. -/
def configW : ClawdbotConfig :=
  { gatewayUrl := "http://127.0.0.1:18789", gatewayToken := none,
    model := none, systemPrompt := none }

/-- A process oracle whose every invocation succeeds with empty output. -/
def cmdEnvOk : CommandEnv :=
  { exec := fun _ => .ok "" "", config := configW }

/-- A process oracle whose every invocation rejects with a plain error and no
captured stdout. -/
def cmdEnvBoom : CommandEnv :=
  { exec := fun _ => .err "boom" "", config := configW }

/-- A process oracle whose every invocation rejects with an
unrecognized-command error and no captured stdout. -/
def cmdEnvUnknown : CommandEnv :=
  { exec := fun _ => .err "unknown command" "", config := configW }

/-- A fetch oracle that always rejects with a timeout error string. -/
def bridgeEnvTimeout : BridgeEnv :=
  { fetchChat := fun _ => .thrown "network timeout at: gateway", config := configW }

/-- A fetch oracle that always rejects with a non-timeout error string. -/
def bridgeEnvDown : BridgeEnv :=
  { fetchChat := fun _ => .thrown "connect ECONNREFUSED 127.0.0.1:18789", config := configW }

/-- The property C3 ascribes to a validating handler: a usage message naming
every accepted value on empty arguments, a rejection naming the set on an
out-of-set value, and a next-message confirmation on an accepted value. -/
def validatesOption (h : String → Except String String) (accepted : List String) : Prop :=
  (∃ u, h "" = .ok u ∧ ∀ v ∈ accepted, strIncludes u v = true) ∧
  (∀ v, v ≠ "" → jsToLower v ∉ accepted →
    ∃ r, h v = .ok r ∧ strIncludes r "❌" = true ∧
      ∀ w ∈ accepted, strIncludes r w = true) ∧
  (∀ v, jsToLower v ∈ accepted →
    ∃ c, h v = .ok c ∧ strIncludes c "다음 메시지부터 적용됩니다" = true)

/-- A webhook environment over the oracles above, with every user verified and
a pairing store that rejects every code, echoing it back. -/
def webhookEnvW : WebhookEnv :=
  { cmdEnv := cmdEnvOk, bridgeEnv := bridgeEnvTimeout,
    isUserVerified := fun _ => true,
    verifyPairingCode := fun _ code _ => { success := false, message := code },
    getConversationHistory := fun _ => [] }

/-! ## Helper lemmas -/

theorem dropWhile_dropWhile (p : Char → Bool) (l : List Char) :
    (l.dropWhile p).dropWhile p = l.dropWhile p := by
  induction l with
  | nil => simp
  | cons a t ih =>
    by_cases h : p a
    · rw [List.dropWhile_cons_of_pos h]; exact ih
    · rw [List.dropWhile_cons_of_neg h, List.dropWhile_cons_of_neg h]

theorem dropWhile_trimChars (cs : List Char) :
    (trimChars cs).dropWhile Char.isWhitespace = trimChars cs := by
  unfold trimChars
  have hsplit :=
    List.takeWhile_append_dropWhile Char.isWhitespace (cs.dropWhile Char.isWhitespace).reverse
  have hA2 :
      ((cs.dropWhile Char.isWhitespace).reverse.dropWhile Char.isWhitespace).reverse ++
        ((cs.dropWhile Char.isWhitespace).reverse.takeWhile Char.isWhitespace).reverse =
        cs.dropWhile Char.isWhitespace := by
    have h := congrArg List.reverse hsplit
    rw [List.reverse_append, List.reverse_reverse] at h
    exact h
  cases hD :
      ((cs.dropWhile Char.isWhitespace).reverse.dropWhile Char.isWhitespace).reverse with
  | nil => simp
  | cons b B =>
    rw [hD] at hA2
    have hhd := List.head?_dropWhile_not Char.isWhitespace cs
    rw [← hA2] at hhd
    simp only [List.cons_append, List.head?_cons] at hhd
    exact List.dropWhile_cons_of_neg (by simp [hhd])

theorem trimChars_nofront (l : List Char) (h : l.dropWhile Char.isWhitespace = l) :
    trimChars l = (l.reverse.dropWhile Char.isWhitespace).reverse := by
  unfold trimChars
  rw [h]

theorem trimChars_idem (cs : List Char) : trimChars (trimChars cs) = trimChars cs := by
  have h1 := dropWhile_trimChars cs
  rw [trimChars_nofront _ h1]
  have h2 : (trimChars cs).reverse.dropWhile Char.isWhitespace = (trimChars cs).reverse := by
    unfold trimChars
    rw [List.reverse_reverse]
    exact dropWhile_dropWhile _ _
  rw [h2, List.reverse_reverse]

theorem jsTrim_idem (s : String) : jsTrim (jsTrim s) = jsTrim s := by
  apply String.ext
  show trimChars (trimChars s.data) = trimChars s.data
  exact trimChars_idem s.data

theorem listIsInfixOf_append_left [BEq α] (n u s : List α)
    (h : listIsInfixOf n s = true) : listIsInfixOf n (u ++ s) = true := by
  induction u with
  | nil => simpa using h
  | cons a t ih =>
    show listIsInfixOf n (a :: (t ++ s)) = true
    unfold listIsInfixOf
    rw [ih]
    simp

theorem strIncludes_append_left (u s t : String) (h : strIncludes s t = true) :
    strIncludes (u ++ s) t = true := by
  unfold strIncludes at *
  rw [String.data_append]
  exact listIsInfixOf_append_left _ _ _ h

/-- Every branch of `handleCommand` with `handled = false` returns the bare
record, and every branch with `handled = true` carries a non-empty response. -/
theorem handleCommand_shape (env : CommandEnv) (message sessionKey : String) :
    handleCommand env message sessionKey = { handled := false } ∨
    ∃ s qr, handleCommand env message sessionKey =
      { handled := true, response := some s, quickReplies := qr } ∧ s ≠ "" := by
  unfold handleCommand
  dsimp only
  split
  · exact Or.inl rfl
  · split
    · exact Or.inl rfl
    · split
      · exact Or.inl rfl
      · rename_i response0 heq
        refine Or.inr ?_
        by_cases hz : response0 = "" ∨ jsTrim response0 = ""
        · rw [if_pos hz]
          split
          · exact ⟨ackText, some QUICK_COMMANDS, rfl, by decide⟩
          · exact ⟨ackText, none, rfl, by decide⟩
        · rw [if_neg hz]
          push_neg at hz
          split
          · exact ⟨response0, some QUICK_COMMANDS, rfl, hz.1⟩
          · exact ⟨response0, none, rfl, hz.1⟩
      · rename_i msg heq
        refine Or.inr ⟨errTextPre ++ msg, none, rfl, ?_⟩
        intro hcontra
        have hlen := congrArg String.length hcontra
        rw [String.length_append] at hlen
        have hpos : 0 < errTextPre.length := by decide
        have hz : ("" : String).length = 0 := rfl
        rw [hz] at hlen
        omega

/-- Any message that parses to the reserved pairing token is reported
unhandled, whatever the environment and session. -/
theorem handleCommand_pair_unhandled (env : CommandEnv) (message sessionKey : String)
    (h : (parseCommand message).command = "/pair") :
    handleCommand env message sessionKey = { handled := false } := by
  unfold handleCommand
  dsimp only
  split
  all_goals simp [h]

/-! ## The claims -/

/-- C1: for every command token starting with the marker that is not a key of
the command table (and is not the reserved pairing token), `handleCommand`
invokes the synthesized external command — the leading marker stripped from
the token, the external-CLI program name prefixed, the arguments appended
only if non-empty (`synthCliCommand`).  If that invocation raises an error
whose message contains one of the substrings "not recognized", "unknown" or
"is not", it returns `{handled := false}`; any other error yields
`{handled := true}` with an error-text response; a success yields the
normalized output. -/
theorem claim_C1 (env : CommandEnv) (message sessionKey : String)
    (hcmd : isCommand message = true)
    (hpair : (parseCommand message).command ≠ "/pair")
    (hunknown : lookupCommand (parseCommand message).command = none) :
    (∀ out, runCli env.exec
        (synthCliCommand (parseCommand message).command (parseCommand message).args) =
        .ok out →
      handleCommand env message sessionKey =
        { handled := true,
          response := some (if out = "" ∨ jsTrim out = "" then ackText else out) }) ∧
    (∀ msg, runCli env.exec
        (synthCliCommand (parseCommand message).command (parseCommand message).args) =
        .error msg →
      (notRecognizedError msg = true →
        handleCommand env message sessionKey = { handled := false }) ∧
      (notRecognizedError msg = false →
        handleCommand env message sessionKey =
          { handled := true, response := some (errTextPre ++ msg) })) := by
  have hslash : (parseCommand message).command ≠ "/" := by
    intro hc
    rw [hc] at hunknown
    exact Option.noConfusion hunknown
  constructor
  · intro out hout
    unfold handleCommand
    dsimp only
    rw [hcmd, if_neg (by simp), if_neg hpair, hunknown]
    dsimp only
    rw [hout]
    dsimp only
    rw [if_neg hslash]
  · intro msg hmsg
    constructor
    · intro hrec
      unfold handleCommand
      dsimp only
      rw [hcmd, if_neg (by simp), if_neg hpair, hunknown]
      dsimp only
      rw [hmsg]
      dsimp only
      rw [if_pos hrec]
    · intro hrec
      unfold handleCommand
      dsimp only
      rw [hcmd, if_neg (by simp), if_neg hpair, hunknown]
      dsimp only
      rw [hmsg]
      dsimp only
      rw [if_neg (by simp [hrec])]

/-- Witness for C1: with an oracle failing as "boom" the unregistered token
`/zzzz` is surfaced as a handled error; failing as "unknown command" it is
reported unhandled; succeeding with empty output it is handled with the
normalized (acknowledgement) response. -/
theorem claim_C1_witness :
    handleCommand cmdEnvBoom "/zzzz" "k" =
      { handled := true, response := some (errTextPre ++ "boom") } ∧
    handleCommand cmdEnvUnknown "/zzzz" "k" = { handled := false } ∧
    handleCommand cmdEnvOk "/zzzz" "k" =
      { handled := true,
        response := some (if "" = "" ∨ jsTrim "" = "" then ackText else "") } :=
  ⟨((claim_C1 cmdEnvBoom "/zzzz" "k" (by decide) (by decide) rfl).2 "boom" rfl).2 (by decide),
   ((claim_C1 cmdEnvUnknown "/zzzz" "k" (by decide) (by decide) rfl).2
      "unknown command" rfl).1 (by decide),
   (claim_C1 cmdEnvOk "/zzzz" "k" (by decide) (by decide) rfl).1 "" rfl⟩

/-- C2: for every input message and session id, if `handled` is false the
response is absent, and if `handled` is true the response is a non-empty
string (an empty or whitespace-only successful response having been replaced
with the fixed acknowledgement text before return). -/
theorem claim_C2 (env : CommandEnv) (message sessionKey : String) :
    ((handleCommand env message sessionKey).handled = false →
      (handleCommand env message sessionKey).response = none) ∧
    ((handleCommand env message sessionKey).handled = true →
      ∃ s, (handleCommand env message sessionKey).response = some s ∧ s ≠ "") := by
  rcases handleCommand_shape env message sessionKey with h | ⟨s, qr, h, hs⟩
  · constructor
    · intro _; rw [h]
    · intro hc; rw [h] at hc; simp at hc
  · constructor
    · intro hc; rw [h] at hc; simp at hc
    · intro _; exact ⟨s, by rw [h], hs⟩

/-- Witness for C2: a chat message is unhandled with no response, and `/help`
is handled with some non-empty response. -/
theorem claim_C2_witness :
    (handleCommand cmdEnvOk "hello" "k").response = none ∧
    (∃ s, (handleCommand cmdEnvOk "/help" "k").response = some s ∧ s ≠ "") :=
  ⟨(claim_C2 cmdEnvOk "hello" "k").1 (by decide),
   (claim_C2 cmdEnvOk "/help" "k").2 (by decide)⟩

/-- C5: `parseCommand` trims its input; "/model: opus" and "/model opus" both
parse to command "/model" with arguments "opus"; on a shape match the command
token is lower-cased and the remainder trimmed, and on a shape mismatch the
whole trimmed-and-lowercased message becomes the command with empty
arguments. -/
theorem claim_C5 :
    (∀ message : String, parseCommand (jsTrim message) = parseCommand message) ∧
    parseCommand "/model: opus" = { command := "/model", args := "opus" } ∧
    parseCommand "/model opus" = { command := "/model", args := "opus" } ∧
    parseCommand "  /MODEL:  Opus  " = { command := "/model", args := "Opus" } ∧
    parseCommand "  Hello there  " = { command := "hello there", args := "" } ∧
    parseCommand "/ hello" = { command := "/ hello", args := "" } := by
  refine ⟨?_, by decide, by decide, by decide, by decide, by decide⟩
  intro message
  unfold parseCommand
  rw [jsTrim_idem]

/-- Witness for C5: the trim-invariance component applied at a concrete
message. -/
theorem claim_C5_witness :
    parseCommand (jsTrim "  /model opus  ") = parseCommand "  /model opus  " :=
  claim_C5.1 "  /model opus  "

/-- C7: for every arguments string and session id, `handleCommand` applied to
the pairing command token returns `{handled := false}` unconditionally. -/
theorem claim_C7 (env : CommandEnv) (message sessionKey : String)
    (h : (parseCommand message).command = "/pair") :
    handleCommand env message sessionKey = { handled := false } :=
  handleCommand_pair_unhandled env message sessionKey h

/-- Witness for C7 at a concrete pairing message. -/
theorem claim_C7_witness :
    handleCommand cmdEnvOk "/pair 1234 홍길동" "k" = { handled := false } :=
  claim_C7 cmdEnvOk "/pair 1234 홍길동" "k" (by decide)

/-- C8: the bare command marker is the only command whose result includes
quick replies — a message parsing to command "/" is handled with the short
prompt text and the curated quick-reply list in its fixed order, and every
other command's result has `quickReplies` absent. -/
theorem claim_C8 (env : CommandEnv) (message sessionKey : String) :
    ((parseCommand message).command = "/" → isCommand message = true →
      handleCommand env message sessionKey =
        { handled := true, response := some "🦞 명령어를 선택하세요!",
          quickReplies := some QUICK_COMMANDS }) ∧
    ((parseCommand message).command ≠ "/" →
      (handleCommand env message sessionKey).quickReplies = none) := by
  constructor
  · intro h h2
    unfold handleCommand
    dsimp only
    rw [h2, h]
    rfl
  · intro h
    unfold handleCommand
    dsimp only
    split
    · rfl
    · split
      · rfl
      · split
        all_goals rfl

/-- Witness for C8: the bare marker carries the curated list; another command
does not. -/
theorem claim_C8_witness :
    handleCommand cmdEnvOk "/" "k" =
      { handled := true, response := some "🦞 명령어를 선택하세요!",
        quickReplies := some QUICK_COMMANDS } ∧
    (handleCommand cmdEnvOk "/think high" "k").quickReplies = none :=
  ⟨(claim_C8 cmdEnvOk "/" "k").1 (by decide) (by decide),
   (claim_C8 cmdEnvOk "/think high" "k").2 (by decide)⟩

/-- C6: `askClawdbot` never propagates a chat-backend failure: whenever the
gateway call raises (network error, non-2xx status, or timeout — all of which
surface as an `Except.error` of `askClawdbotGateway`), it returns the canned
fallback — the timeout-specific text when the error's string form contains
"timeout" or "ETIMEDOUT", otherwise the generic failure text. -/
theorem claim_C6 (env : BridgeEnv) (message sessionKey : String)
    (history : List ConversationMessage) (e : String)
    (herr : askClawdbotGateway env message sessionKey history = .error e) :
    askClawdbot env message sessionKey history =
      { text := if (strIncludes e "timeout" || strIncludes e "ETIMEDOUT") = true
                then timeoutFallbackText else genericFallbackText,
        metadata := some { toolsUsed := some [], processingTime := some 0 } } := by
  unfold askClawdbot
  rw [herr]

/-- Witness for C6: a rejecting fetch with a timeout string yields the
timeout fallback shape, and a rejecting fetch with a connection error yields
the generic fallback shape. -/
theorem claim_C6_witness :
    askClawdbot bridgeEnvTimeout "hi" "k" [] =
      { text := if (strIncludes "network timeout at: gateway" "timeout" ||
                    strIncludes "network timeout at: gateway" "ETIMEDOUT") = true
                then timeoutFallbackText else genericFallbackText,
        metadata := some { toolsUsed := some [], processingTime := some 0 } } ∧
    askClawdbot bridgeEnvDown "hi" "k" [] =
      { text := if (strIncludes "connect ECONNREFUSED 127.0.0.1:18789" "timeout" ||
                    strIncludes "connect ECONNREFUSED 127.0.0.1:18789" "ETIMEDOUT") = true
                then timeoutFallbackText else genericFallbackText,
        metadata := some { toolsUsed := some [], processingTime := some 0 } } :=
  ⟨claim_C6 bridgeEnvTimeout "hi" "k" [] "network timeout at: gateway" rfl,
   claim_C6 bridgeEnvDown "hi" "k" [] "connect ECONNREFUSED 127.0.0.1:18789" rfl⟩

/-- C3 counterexample: the claim includes TTS among the handlers that reject
out-of-set values, but the TTS handler acknowledges the out-of-set value
"zzz" with a response that is not a rejection and does not name the accepted
set. -/
theorem claim_C3_counterexample :
    ttsHandler "zzz" = .ok "🔊 TTS: zzz\n\n다음 메시지부터 적용됩니다." ∧
    ("zzz" ∈ ttsModes → False) ∧
    strIncludes "🔊 TTS: zzz\n\n다음 메시지부터 적용됩니다." "always" = false ∧
    strIncludes "🔊 TTS: zzz\n\n다음 메시지부터 적용됩니다." "❌" = false :=
  ⟨rfl, by decide, by decide, by decide⟩

/-- C3 amended: the think-depth, verbosity, reasoning-display and elevation
handlers validate exactly as claimed (usage listing the accepted set on empty
arguments, a rejection naming the set on an out-of-set value, a next-message
confirmation on an accepted value); the TTS handler returns its usage list on
empty arguments but performs no validation — every non-empty value is
acknowledged with the next-message confirmation. -/
theorem claim_C3_amended :
    validatesOption thinkHandler thinkLevels ∧
    validatesOption verboseHandler verboseModes ∧
    validatesOption reasoningHandler reasoningModes ∧
    validatesOption elevatedHandler elevatedModes ∧
    (∃ u, ttsHandler "" = .ok u ∧ ∀ v ∈ ttsModes, strIncludes u v = true) ∧
    (∀ v, v ≠ "" →
      ttsHandler v = .ok ("🔊 TTS: " ++ v ++ "\n\n다음 메시지부터 적용됩니다.")) := by
  refine ⟨⟨⟨_, rfl, by decide⟩, ?_, ?_⟩, ⟨⟨_, rfl, by decide⟩, ?_, ?_⟩,
    ⟨⟨_, rfl, by decide⟩, ?_, ?_⟩, ⟨⟨_, rfl, by decide⟩, ?_, ?_⟩,
    ⟨_, rfl, by decide⟩, ?_⟩
  · intro v hne hnm
    have hc : thinkLevels.contains (jsToLower v) = false := by simpa using hnm
    refine ⟨"❌ 잘못된 레벨입니다.\n사용 가능: " ++ String.intercalate ", " thinkLevels,
      ?_, by decide, by decide⟩
    unfold thinkHandler
    dsimp only
    rw [if_neg hne, if_pos hc]
  · intro v hm
    have hne : v ≠ "" := by
      intro hv; rw [hv] at hm; exact absurd hm (by decide)
    have hc : thinkLevels.contains (jsToLower v) = true := by simpa using hm
    refine ⟨"🧠 생각 모드: " ++ jsToLower v ++ "\n\n다음 메시지부터 적용됩니다.", ?_,
      strIncludes_append_left _ _ _ (by decide)⟩
    unfold thinkHandler
    dsimp only
    rw [if_neg hne, if_neg (by simp only [hc]; decide)]
  · intro v hne hnm
    have hc : verboseModes.contains (jsToLower v) = false := by simpa using hnm
    refine ⟨"❌ 잘못된 옵션입니다.\n사용 가능: " ++ String.intercalate ", " verboseModes,
      ?_, by decide, by decide⟩
    unfold verboseHandler
    dsimp only
    rw [if_neg hne, if_pos hc]
  · intro v hm
    have hne : v ≠ "" := by
      intro hv; rw [hv] at hm; exact absurd hm (by decide)
    have hc : verboseModes.contains (jsToLower v) = true := by simpa using hm
    refine ⟨"📝 상세 모드: " ++ v ++ "\n\n다음 메시지부터 적용됩니다.", ?_,
      strIncludes_append_left _ _ _ (by decide)⟩
    unfold verboseHandler
    dsimp only
    rw [if_neg hne, if_neg (by simp only [hc]; decide)]
  · intro v hne hnm
    have hc : reasoningModes.contains (jsToLower v) = false := by simpa using hnm
    refine ⟨"❌ 잘못된 옵션입니다.\n사용 가능: " ++ String.intercalate ", " reasoningModes,
      ?_, by decide, by decide⟩
    unfold reasoningHandler
    dsimp only
    rw [if_neg hne, if_pos hc]
  · intro v hm
    have hne : v ≠ "" := by
      intro hv; rw [hv] at hm; exact absurd hm (by decide)
    have hc : reasoningModes.contains (jsToLower v) = true := by simpa using hm
    refine ⟨"💭 추론 모드: " ++ v ++ "\n\n다음 메시지부터 적용됩니다.", ?_,
      strIncludes_append_left _ _ _ (by decide)⟩
    unfold reasoningHandler
    dsimp only
    rw [if_neg hne, if_neg (by simp only [hc]; decide)]
  · intro v hne hnm
    have hc : elevatedModes.contains (jsToLower v) = false := by simpa using hnm
    refine ⟨"❌ 잘못된 옵션입니다.\n사용 가능: " ++ String.intercalate ", " elevatedModes,
      ?_, by decide, by decide⟩
    unfold elevatedHandler
    dsimp only
    rw [if_neg hne, if_pos hc]
  · intro v hm
    have hne : v ≠ "" := by
      intro hv; rw [hv] at hm; exact absurd hm (by decide)
    have hc : elevatedModes.contains (jsToLower v) = true := by simpa using hm
    refine ⟨"🔐 권한 모드: " ++ v ++ "\n\n다음 메시지부터 적용됩니다.", ?_,
      strIncludes_append_left _ _ _ (by decide)⟩
    unfold elevatedHandler
    dsimp only
    rw [if_neg hne, if_neg (by simp only [hc]; decide)]
  · intro v hne
    unfold ttsHandler
    dsimp only
    rw [if_neg hne]

/-- Witness for C3 (amended) at concrete values: an out-of-set think level is
rejected, an accepted verbose mode (case-insensitively) is confirmed, and a
non-empty TTS value is acknowledged unvalidated. -/
theorem claim_C3_amended_witness :
    (∃ r, thinkHandler "banana" = .ok r ∧ strIncludes r "❌" = true ∧
      ∀ w ∈ thinkLevels, strIncludes r w = true) ∧
    (∃ c, verboseHandler "FULL" = .ok c ∧
      strIncludes c "다음 메시지부터 적용됩니다" = true) ∧
    ttsHandler "qqq" = .ok ("🔊 TTS: " ++ "qqq" ++ "\n\n다음 메시지부터 적용됩니다.") :=
  ⟨claim_C3_amended.1.2.1 "banana" (by decide) (by decide),
   claim_C3_amended.2.1.2.2 "FULL" (by decide),
   claim_C3_amended.2.2.2.2.2 "qqq" (by decide)⟩

/-- The fold of `extractDirectives` either leaves its accumulator untouched or
strictly grows the directive list and leaves a trimmed remainder. -/
theorem extract_fold_shape (pats : List (List Char → Option (List Char)))
    (ds : List String) (cm : String) :
    pats.foldl applyDirectivePattern (ds, cm) = (ds, cm) ∨
    ∃ ds2 s, pats.foldl applyDirectivePattern (ds, cm) = (ds2, jsTrim s) ∧
      ds.length < ds2.length := by
  induction pats generalizing ds cm with
  | nil => exact Or.inl rfl
  | cons p rest ih =>
    rw [List.foldl_cons]
    cases hp : p cm.data with
    | none =>
      have hstep : applyDirectivePattern (ds, cm) p = (ds, cm) := by
        simp only [applyDirectivePattern, hp]
      rw [hstep]
      exact ih ds cm
    | some r =>
      have hstep : applyDirectivePattern (ds, cm) p =
          (ds ++ [jsTrim (String.mk (cm.data.take (cm.data.length - r.length)))],
            jsTrim (String.mk r)) := by
        simp only [applyDirectivePattern, hp]
      rw [hstep]
      rcases ih (ds ++ [jsTrim (String.mk (cm.data.take (cm.data.length - r.length)))])
          (jsTrim (String.mk r)) with h | ⟨ds2, s, h, hl⟩
      · refine Or.inr
          ⟨ds ++ [jsTrim (String.mk (cm.data.take (cm.data.length - r.length)))],
            String.mk r, ?_, ?_⟩
        · rw [h]
        · simp
      · refine Or.inr ⟨ds2, s, h, ?_⟩
        simp only [List.length_append, List.length_cons, List.length_nil] at hl
        omega

/-- C4 counterexample: on a message with surrounding whitespace that matches
no directive pattern, `cleanMessage` is returned untouched rather than
trimmed, contradicting the claim that the returned remainder is always
trimmed of leading and trailing whitespace. -/
theorem claim_C4_counterexample :
    (extractDirectives " hi ").directives = [] ∧
    (extractDirectives " hi ").cleanMessage = " hi " ∧
    jsTrim " hi " ≠ " hi " :=
  ⟨by decide, by decide, by decide⟩

/-- C4 amended: `extractDirectives` tries each pattern exactly once in the
fixed order against the current remainder, appending each matched prefix
(trimmed) in that order and removing it before the next pattern; the
remainder is trimmed after each successful match — so `cleanMessage` is a
trimmed string whenever at least one directive matched, and is the original
message unchanged (not trimmed) when none did.  In particular the claimed
example evaluation holds. -/
theorem claim_C4_amended :
    extractDirectives "/think high explain this" =
      { directives := ["/think high"], cleanMessage := "explain this" } ∧
    extractDirectives "/think high /verbose on explain" =
      { directives := ["/think high", "/verbose on"], cleanMessage := "explain" } ∧
    (∀ m, (extractDirectives m).directives = [] →
      (extractDirectives m).cleanMessage = m) ∧
    (∀ m, (extractDirectives m).directives ≠ [] →
      ∃ s, (extractDirectives m).cleanMessage = jsTrim s) := by
  refine ⟨by decide, by decide, ?_, ?_⟩
  · intro m hd
    unfold extractDirectives at hd ⊢
    dsimp only at hd ⊢
    rcases extract_fold_shape directivePatterns [] m with h | ⟨ds2, s, h, hl⟩
    · rw [h]
    · rw [h] at hd
      dsimp only at hd
      rw [hd] at hl
      simp at hl
  · intro m hd
    unfold extractDirectives at hd ⊢
    dsimp only at hd ⊢
    rcases extract_fold_shape directivePatterns [] m with h | ⟨ds2, s, h, hl⟩
    · rw [h] at hd
      simp at hd
    · rw [h]
      exact ⟨s, rfl⟩

/-- Witness for C4 (amended) at concrete messages: a directive-free message
comes back unchanged, and a message with a directive yields a trimmed
remainder. -/
theorem claim_C4_amended_witness :
    (extractDirectives "hello world").cleanMessage = "hello world" ∧
    ∃ s, (extractDirectives "/elevated ask proceed").cleanMessage = jsTrim s :=
  ⟨claim_C4_amended.2.2.1 "hello world" (by decide),
   claim_C4_amended.2.2.2 "/elevated ask proceed" (by decide)⟩

/-! ## Round-trip machinery for C9

The validators accept exactly the strings whose lower-casing is a member of
the accepted set; the lemmas below evaluate the anchored case-insensitive
matchers on a message built from the command token, such a value, and a
following word. -/

theorem map_toLower_cons {l : List Char} {b : Char} {bs : List Char}
    (h : l.map Char.toLower = b :: bs) :
    ∃ a as, l = a :: as ∧ a.toLower = b ∧ as.map Char.toLower = bs := by
  cases l with
  | nil => simp at h
  | cons a as =>
    simp only [List.map_cons, List.cons.injEq] at h
    exact ⟨a, as, rfl, h.1, h.2⟩

theorem toLower_of_isWhitespace {c : Char} (h : c.isWhitespace = true) :
    c.toLower = c := by
  simp [Char.isWhitespace] at h
  rcases h with ((h | h) | h) | h <;> (subst h; rfl)

theorem not_ws_of_toLower {c d : Char} (h : c.toLower = d)
    (hd : d.isWhitespace = false) : c.isWhitespace = false := by
  by_contra hc
  have hc1 : c.isWhitespace = true := by simpa using hc
  have hcd : c = d := ((toLower_of_isWhitespace hc1).symm.trans h)
  rw [hcd] at hc1
  rw [hc1] at hd
  exact Bool.noConfusion hd

theorem ciStrip_of_map {w pre : List Char} (rest : List Char)
    (h : pre.map Char.toLower = w.map Char.toLower) :
    ciStrip w (pre ++ rest) = some rest := by
  induction w generalizing pre with
  | nil =>
    have hpre : pre = [] := by
      cases pre with
      | nil => rfl
      | cons a as => simp at h
    rw [hpre]
    rfl
  | cons a ws ih =>
    obtain ⟨b, bs, hpre, hb, hbs⟩ := map_toLower_cons h
    rw [hpre, List.cons_append]
    show ciStrip (a :: ws) (b :: (bs ++ rest)) = some rest
    unfold ciStrip
    rw [if_pos (by simp [hb])]
    exact ih hbs

theorem ciStrip_none_of_not_prefix {w cs : List Char}
    (h : ¬ (w.map Char.toLower <+: cs.map Char.toLower)) :
    ciStrip w cs = none := by
  induction w generalizing cs with
  | nil => exact absurd (by simp) h
  | cons a ws ih =>
    cases cs with
    | nil => rfl
    | cons c rest =>
      by_cases hc : c.toLower == a.toLower
      · have hc1 : a.toLower = c.toLower := (beq_iff_eq.mp hc).symm
        have hrest : ¬ (ws.map Char.toLower <+: rest.map Char.toLower) := by
          intro hp
          exact h (by
            simp only [List.map_cons]
            exact (List.cons_prefix_cons).mpr ⟨hc1, hp⟩)
        show ciStrip (a :: ws) (c :: rest) = none
        unfold ciStrip
        rw [if_pos hc]
        exact ih hrest
      · show ciStrip (a :: ws) (c :: rest) = none
        unfold ciStrip
        rw [if_neg (by simpa using hc)]

theorem not_prefix_of_sep (p w : List Char) (X : List Char)
    (h1 : ¬ (p <+: w ++ [' '])) (h2 : ¬ (w ++ [' '] <+: p)) :
    ¬ (p <+: w ++ ' ' :: X) := by
  intro hp
  have hsep : (w ++ [' ']) <+: (w ++ ' ' :: X) := ⟨X, by simp⟩
  rcases List.prefix_or_prefix_of_prefix hp hsep with h | h
  · exact h1 h
  · exact h2 h

theorem altCI_cons_ok (a : String) (alts : List String) (cs : List Char)
    (k : List Char → Option (List Char)) (r out : List Char)
    (h1 : ciStrip a.data cs = some r) (h2 : k r = some out) :
    altCI (a :: alts) cs k = some out := by
  show (match ciStrip a.data cs with
        | some cs1 =>
          match k cs1 with
          | some out => some out
          | none => altCI alts cs k
        | none => altCI alts cs k) = some out
  rw [h1]
  show (match k r with
        | some out => some out
        | none => altCI alts cs k) = some out
  rw [h2]

theorem altCI_cons_fail (a : String) (alts : List String) (cs : List Char)
    (k : List Char → Option (List Char))
    (h : ciStrip a.data cs = none) :
    altCI (a :: alts) cs k = altCI alts cs k := by
  show (match ciStrip a.data cs with
        | some cs1 =>
          match k cs1 with
          | some out => some out
          | none => altCI alts cs k
        | none => altCI alts cs k) = altCI alts cs k
  rw [h]

theorem applyDirectivePattern_none (ds : List String) (cm : String)
    (pat : List Char → Option (List Char)) (h : pat cm.data = none) :
    applyDirectivePattern (ds, cm) pat = (ds, cm) := by
  simp only [applyDirectivePattern, h]

theorem applyDirectivePattern_some (ds : List String) (cm : String)
    (pat : List Char → Option (List Char)) (rest : List Char)
    (h : pat cm.data = some rest) :
    applyDirectivePattern (ds, cm) pat =
      (ds ++ [jsTrim (String.mk (cm.data.take (cm.data.length - rest.length)))],
        jsTrim (String.mk rest)) := by
  simp only [applyDirectivePattern, h]

/-- The level alternation succeeds on the member `w` of the accepted set (the
value's case-folding), failing the earlier alternatives outright. -/
theorem altCI_level_hit (w : String) (pre post : List String)
    (vd R : List Char)
    (hmap : vd.map Char.toLower = w.data)
    (hself : w.data.map Char.toLower = w.data)
    (hpre_self : ∀ p ∈ pre, p.data.map Char.toLower = p.data)
    (hfail : ∀ p ∈ pre, ¬ (p.data <+: (w.data ++ ' ' :: R.map Char.toLower))) :
    altCI (pre ++ w :: post) (vd ++ ' ' :: R) wsPlus =
      some (R.dropWhile Char.isWhitespace) := by
  induction pre with
  | nil =>
    have hstrip : ciStrip w.data (vd ++ ' ' :: R) = some (' ' :: R) :=
      ciStrip_of_map (' ' :: R) (by rw [hmap, hself])
    have hws : wsPlus (' ' :: R) = some (R.dropWhile Char.isWhitespace) := rfl
    exact altCI_cons_ok w post (vd ++ ' ' :: R) wsPlus (' ' :: R)
      (R.dropWhile Char.isWhitespace) hstrip hws
  | cons p pre ih =>
    have hmapfull : (vd ++ ' ' :: R).map Char.toLower =
        w.data ++ ' ' :: R.map Char.toLower := by
      rw [List.map_append, hmap, List.map_cons]
      rfl
    have hnone : ciStrip p.data (vd ++ ' ' :: R) = none := by
      apply ciStrip_none_of_not_prefix
      rw [hmapfull, hpre_self p (by simp)]
      exact hfail p (by simp)
    rw [List.cons_append,
      altCI_cons_fail p (pre ++ w :: post) (vd ++ ' ' :: R) wsPlus hnone]
    exact ih (fun q hq => hpre_self q (by simp [hq]))
      (fun q hq => hfail q (by simp [hq]))

/-- Evaluation of one whole matcher body on `/<token> <value> <word>`: the
canonical token matches as the first alternative, the separating whitespace is
consumed, and the level alternation hits `w`. -/
theorem matchShape_eval (cmdFirst : String) (cmdRest : List String)
    (levels : List String) (v w : String) (R : List Char)
    (pre post : List String) (hsplit : levels = pre ++ w :: post)
    (hmap : v.data.map Char.toLower = w.data)
    (hself : w.data.map Char.toLower = w.data)
    (hwne : w.data ≠ [])
    (hwnws : ∀ c ∈ w.data, c.isWhitespace = false)
    (hpre_self : ∀ p ∈ pre, p.data.map Char.toLower = p.data)
    (hfail : ∀ p ∈ pre, ¬ (p.data <+: (w.data ++ ' ' :: R.map Char.toLower))) :
    altCI (cmdFirst :: cmdRest) (cmdFirst.data ++ (' ' :: (v.data ++ ' ' :: R)))
      (fun r =>
        match wsPlus r with
        | some r1 => altCI levels r1 wsPlus
        | none => none) = some (R.dropWhile Char.isWhitespace) := by
  have hstrip : ciStrip cmdFirst.data
      (cmdFirst.data ++ (' ' :: (v.data ++ ' ' :: R))) =
      some (' ' :: (v.data ++ ' ' :: R)) :=
    ciStrip_of_map (' ' :: (v.data ++ ' ' :: R)) rfl
  have hvhead : (v.data ++ ' ' :: R).dropWhile Char.isWhitespace =
      v.data ++ ' ' :: R := by
    cases hw0 : w.data with
    | nil => exact absurd hw0 hwne
    | cons d ds =>
      rw [hw0] at hmap
      obtain ⟨c, t, hv0, hc, hm⟩ := map_toLower_cons hmap
      rw [hv0, List.cons_append]
      refine List.dropWhile_cons_of_neg ?_
      have hd : d.isWhitespace = false := hwnws d (by rw [hw0]; simp)
      simp [not_ws_of_toLower hc hd]
  have hk : (fun r =>
      match wsPlus r with
      | some r1 => altCI levels r1 wsPlus
      | none => none) (' ' :: (v.data ++ ' ' :: R)) =
      some (R.dropWhile Char.isWhitespace) := by
    show (match wsPlus (' ' :: (v.data ++ ' ' :: R)) with
          | some r1 => altCI levels r1 wsPlus
          | none => none) = some (R.dropWhile Char.isWhitespace)
    have hws : wsPlus (' ' :: (v.data ++ ' ' :: R)) =
        some ((v.data ++ ' ' :: R).dropWhile Char.isWhitespace) := rfl
    rw [hws, hvhead]
    show altCI levels (v.data ++ ' ' :: R) wsPlus =
      some (R.dropWhile Char.isWhitespace)
    rw [hsplit]
    exact altCI_level_hit w pre post v.data R hmap hself hpre_self hfail
  exact altCI_cons_ok cmdFirst cmdRest _ _ _ _ hstrip hk

theorem take_append_one (A : List Char) (c : Char) (R : List Char) :
    (A ++ (c :: R)).take (A.length + 1) = A ++ [c] := by
  rw [List.take_append_eq_append_take]
  have h1 : A.take (A.length + 1) = A := List.take_of_length_le (by omega)
  have h2 : A.length + 1 - A.length = 1 := by omega
  rw [h1, h2]
  rfl

/-- Trimming the matched prefix `<head-token> <value> ` drops exactly the
trailing space: the head is a non-whitespace marker and the value ends in a
non-whitespace character. -/
theorem trim_directive (A vd w : List Char)
    (hAne : A ≠ []) (hAhd : (A.headD ' ').isWhitespace = false)
    (hmap : vd.map Char.toLower = w)
    (hwne : w ≠ []) (hwnws : ∀ c ∈ w, c.isWhitespace = false) :
    trimChars ((A ++ vd) ++ [' ']) = A ++ vd := by
  obtain ⟨a, A1, hA⟩ : ∃ a A1, A = a :: A1 := by
    cases A with
    | nil => exact absurd rfl hAne
    | cons x xs => exact ⟨x, xs, rfl⟩
  have ha : a.isWhitespace = false := by
    rw [hA] at hAhd
    simpa using hAhd
  have hfront : ((A ++ vd) ++ [' ']).dropWhile Char.isWhitespace =
      (A ++ vd) ++ [' '] := by
    rw [hA, List.cons_append, List.cons_append]
    exact List.dropWhile_cons_of_neg (by simp [ha])
  -- the reversed list starts with the trailing space, then the reversed value
  have hrev : ((A ++ vd) ++ [' ']).reverse = ' ' :: (vd.reverse ++ A.reverse) := by
    rw [List.reverse_append, List.reverse_append]
    rfl
  have hmrev : vd.reverse.map Char.toLower = w.reverse := by
    rw [List.map_reverse, hmap]
  obtain ⟨d, ds, hw0⟩ : ∃ d ds, w.reverse = d :: ds := by
    cases hwr : w.reverse with
    | nil =>
      exfalso
      apply hwne
      have := congrArg List.reverse hwr
      simpa using this
    | cons d ds => exact ⟨d, ds, rfl⟩
  rw [hw0] at hmrev
  obtain ⟨e, t, hvrev, he, ht⟩ := map_toLower_cons hmrev
  have hdm : d ∈ w := by
    have hdr : d ∈ w.reverse := by rw [hw0]; simp
    simpa [List.mem_reverse] using hdr
  have hens : e.isWhitespace = false := not_ws_of_toLower he (hwnws d hdm)
  have hback : (' ' :: (vd.reverse ++ A.reverse)).dropWhile Char.isWhitespace =
      vd.reverse ++ A.reverse := by
    rw [List.dropWhile_cons_of_pos (by decide)]
    rw [hvrev, List.cons_append]
    exact List.dropWhile_cons_of_neg (by simp [hens])
  unfold trimChars
  rw [hfront, hrev, hback, List.reverse_append, List.reverse_reverse,
    List.reverse_reverse]

theorem matchThink_hit (v w : String) (R : List Char)
    (hw : w ∈ thinkLevels) (hmap : v.data.map Char.toLower = w.data) :
    matchThink ('/' :: ("think".data ++ (' ' :: (v.data ++ ' ' :: R)))) =
      some (R.dropWhile Char.isWhitespace) := by
  show altCI ["think", "thinking", "t"]
      ("think".data ++ (' ' :: (v.data ++ ' ' :: R)))
      (fun r =>
        match wsPlus r with
        | some r1 => altCI thinkLevels r1 wsPlus
        | none => none) = some (R.dropWhile Char.isWhitespace)
  fin_cases hw
  · exact matchShape_eval "think" ["thinking", "t"] thinkLevels v "off" R
      [] ["minimal", "low", "medium", "high", "xhigh"] (by decide) hmap
      (by decide) (by decide) (by decide) (by simp) (by simp)
  · exact matchShape_eval "think" ["thinking", "t"] thinkLevels v "minimal" R
      ["off"] ["low", "medium", "high", "xhigh"] (by decide) hmap
      (by decide) (by decide) (by decide) (by decide)
      (by intro p hp
          fin_cases hp
          exact not_prefix_of_sep _ _ _ (by decide) (by decide))
  · exact matchShape_eval "think" ["thinking", "t"] thinkLevels v "low" R
      ["off", "minimal"] ["medium", "high", "xhigh"] (by decide) hmap
      (by decide) (by decide) (by decide) (by decide)
      (by intro p hp
          fin_cases hp <;> exact not_prefix_of_sep _ _ _ (by decide) (by decide))
  · exact matchShape_eval "think" ["thinking", "t"] thinkLevels v "medium" R
      ["off", "minimal", "low"] ["high", "xhigh"] (by decide) hmap
      (by decide) (by decide) (by decide) (by decide)
      (by intro p hp
          fin_cases hp <;> exact not_prefix_of_sep _ _ _ (by decide) (by decide))
  · exact matchShape_eval "think" ["thinking", "t"] thinkLevels v "high" R
      ["off", "minimal", "low", "medium"] ["xhigh"] (by decide) hmap
      (by decide) (by decide) (by decide) (by decide)
      (by intro p hp
          fin_cases hp <;> exact not_prefix_of_sep _ _ _ (by decide) (by decide))
  · exact matchShape_eval "think" ["thinking", "t"] thinkLevels v "xhigh" R
      ["off", "minimal", "low", "medium", "high"] [] (by decide) hmap
      (by decide) (by decide) (by decide) (by decide)
      (by intro p hp
          fin_cases hp <;> exact not_prefix_of_sep _ _ _ (by decide) (by decide))

theorem c9_think (v w : String) (hw : w ∈ thinkLevels) (hv : jsToLower v = w)
    (hwne : w.data ≠ []) (hwnws : ∀ c ∈ w.data, c.isWhitespace = false) :
    extractDirectives ("/think " ++ v ++ " hello") =
      { directives := ["/think " ++ v], cleanMessage := "hello" } := by
  have hmap : v.data.map Char.toLower = w.data := congrArg String.data hv
  have hm : matchThink (("/think " ++ v ++ " hello").data) = some ("hello".data) :=
    matchThink_hit v w "hello".data hw hmap
  have htake : ("/think " ++ v ++ " hello").data.take
      (("/think " ++ v ++ " hello").data.length - "hello".data.length) =
      ("/think ".data ++ v.data) ++ [' '] := by
    have hshape : ("/think " ++ v ++ " hello").data =
        ("/think ".data ++ v.data) ++ (' ' :: "hello".data) := rfl
    rw [hshape]
    have hidx : ((("/think ".data ++ v.data) ++ (' ' :: "hello".data)).length -
        "hello".data.length) = ("/think ".data ++ v.data).length + 1 := by
      simp only [List.length_append, List.length_cons]
      omega
    rw [hidx]
    exact take_append_one _ _ _
  have htrim : jsTrim (String.mk (("/think ".data ++ v.data) ++ [' '])) =
      "/think " ++ v := by
    show String.mk (trimChars (("/think ".data ++ v.data) ++ [' '])) = "/think " ++ v
    rw [trim_directive "/think ".data v.data w.data (by decide) (by decide)
      hmap hwne hwnws]
    exact String.ext (by rw [String.data_append])
  unfold extractDirectives
  dsimp only
  unfold directivePatterns
  rw [List.foldl_cons,
    applyDirectivePattern_some [] ("/think " ++ v ++ " hello") matchThink
      "hello".data hm]
  rw [htake, htrim]
  rfl

theorem matchVerbose_hit (v w : String) (R : List Char)
    (hw : w ∈ verboseModes) (hmap : v.data.map Char.toLower = w.data) :
    matchVerbose ('/' :: ("verbose".data ++ (' ' :: (v.data ++ ' ' :: R)))) =
      some (R.dropWhile Char.isWhitespace) := by
  show altCI ["verbose", "v"]
      ("verbose".data ++ (' ' :: (v.data ++ ' ' :: R)))
      (fun r =>
        match wsPlus r with
        | some r1 => altCI verboseModes r1 wsPlus
        | none => none) = some (R.dropWhile Char.isWhitespace)
  fin_cases hw
  · exact matchShape_eval "verbose" ["v"] verboseModes v "on" R
      [] ["full", "off"] (by decide) hmap
      (by decide) (by decide) (by decide) (by simp) (by simp)
  · exact matchShape_eval "verbose" ["v"] verboseModes v "full" R
      ["on"] ["off"] (by decide) hmap
      (by decide) (by decide) (by decide) (by decide)
      (by intro p hp
          fin_cases hp
          exact not_prefix_of_sep _ _ _ (by decide) (by decide))
  · exact matchShape_eval "verbose" ["v"] verboseModes v "off" R
      ["on", "full"] [] (by decide) hmap
      (by decide) (by decide) (by decide) (by decide)
      (by intro p hp
          fin_cases hp <;> exact not_prefix_of_sep _ _ _ (by decide) (by decide))

theorem c9_verbose (v w : String) (hw : w ∈ verboseModes) (hv : jsToLower v = w)
    (hwne : w.data ≠ []) (hwnws : ∀ c ∈ w.data, c.isWhitespace = false) :
    extractDirectives ("/verbose " ++ v ++ " hello") =
      { directives := ["/verbose " ++ v], cleanMessage := "hello" } := by
  have hmap : v.data.map Char.toLower = w.data := congrArg String.data hv
  have hm : matchVerbose (("/verbose " ++ v ++ " hello").data) = some ("hello".data) :=
    matchVerbose_hit v w "hello".data hw hmap
  have htake : ("/verbose " ++ v ++ " hello").data.take
      (("/verbose " ++ v ++ " hello").data.length - "hello".data.length) =
      ("/verbose ".data ++ v.data) ++ [' '] := by
    have hshape : ("/verbose " ++ v ++ " hello").data =
        ("/verbose ".data ++ v.data) ++ (' ' :: "hello".data) := rfl
    rw [hshape]
    have hidx : ((("/verbose ".data ++ v.data) ++ (' ' :: "hello".data)).length -
        "hello".data.length) = ("/verbose ".data ++ v.data).length + 1 := by
      simp only [List.length_append, List.length_cons]
      omega
    rw [hidx]
    exact take_append_one _ _ _
  have htrim : jsTrim (String.mk (("/verbose ".data ++ v.data) ++ [' '])) =
      "/verbose " ++ v := by
    show String.mk (trimChars (("/verbose ".data ++ v.data) ++ [' '])) =
      "/verbose " ++ v
    rw [trim_directive "/verbose ".data v.data w.data (by decide) (by decide)
      hmap hwne hwnws]
    exact String.ext (by rw [String.data_append])
  unfold extractDirectives
  dsimp only
  unfold directivePatterns
  rw [List.foldl_cons,
    applyDirectivePattern_none [] ("/verbose " ++ v ++ " hello") matchThink rfl]
  rw [List.foldl_cons,
    applyDirectivePattern_some [] ("/verbose " ++ v ++ " hello") matchVerbose
      "hello".data hm]
  rw [htake, htrim]
  rfl

theorem matchReasoning_hit (v w : String) (R : List Char)
    (hw : w ∈ reasoningModes) (hmap : v.data.map Char.toLower = w.data) :
    matchReasoning ('/' :: ("reasoning".data ++ (' ' :: (v.data ++ ' ' :: R)))) =
      some (R.dropWhile Char.isWhitespace) := by
  show altCI ["reasoning", "reason"]
      ("reasoning".data ++ (' ' :: (v.data ++ ' ' :: R)))
      (fun r =>
        match wsPlus r with
        | some r1 => altCI reasoningModes r1 wsPlus
        | none => none) = some (R.dropWhile Char.isWhitespace)
  fin_cases hw
  · exact matchShape_eval "reasoning" ["reason"] reasoningModes v "on" R
      [] ["off", "stream"] (by decide) hmap
      (by decide) (by decide) (by decide) (by simp) (by simp)
  · exact matchShape_eval "reasoning" ["reason"] reasoningModes v "off" R
      ["on"] ["stream"] (by decide) hmap
      (by decide) (by decide) (by decide) (by decide)
      (by intro p hp
          fin_cases hp
          exact not_prefix_of_sep _ _ _ (by decide) (by decide))
  · exact matchShape_eval "reasoning" ["reason"] reasoningModes v "stream" R
      ["on", "off"] [] (by decide) hmap
      (by decide) (by decide) (by decide) (by decide)
      (by intro p hp
          fin_cases hp <;> exact not_prefix_of_sep _ _ _ (by decide) (by decide))

theorem c9_reasoning (v w : String) (hw : w ∈ reasoningModes) (hv : jsToLower v = w)
    (hwne : w.data ≠ []) (hwnws : ∀ c ∈ w.data, c.isWhitespace = false) :
    extractDirectives ("/reasoning " ++ v ++ " hello") =
      { directives := ["/reasoning " ++ v], cleanMessage := "hello" } := by
  have hmap : v.data.map Char.toLower = w.data := congrArg String.data hv
  have hm : matchReasoning (("/reasoning " ++ v ++ " hello").data) =
      some ("hello".data) :=
    matchReasoning_hit v w "hello".data hw hmap
  have htake : ("/reasoning " ++ v ++ " hello").data.take
      (("/reasoning " ++ v ++ " hello").data.length - "hello".data.length) =
      ("/reasoning ".data ++ v.data) ++ [' '] := by
    have hshape : ("/reasoning " ++ v ++ " hello").data =
        ("/reasoning ".data ++ v.data) ++ (' ' :: "hello".data) := rfl
    rw [hshape]
    have hidx : ((("/reasoning ".data ++ v.data) ++ (' ' :: "hello".data)).length -
        "hello".data.length) = ("/reasoning ".data ++ v.data).length + 1 := by
      simp only [List.length_append, List.length_cons]
      omega
    rw [hidx]
    exact take_append_one _ _ _
  have htrim : jsTrim (String.mk (("/reasoning ".data ++ v.data) ++ [' '])) =
      "/reasoning " ++ v := by
    show String.mk (trimChars (("/reasoning ".data ++ v.data) ++ [' '])) =
      "/reasoning " ++ v
    rw [trim_directive "/reasoning ".data v.data w.data (by decide) (by decide)
      hmap hwne hwnws]
    exact String.ext (by rw [String.data_append])
  unfold extractDirectives
  dsimp only
  unfold directivePatterns
  rw [List.foldl_cons,
    applyDirectivePattern_none [] ("/reasoning " ++ v ++ " hello") matchThink rfl]
  rw [List.foldl_cons,
    applyDirectivePattern_none [] ("/reasoning " ++ v ++ " hello") matchVerbose rfl]
  rw [List.foldl_cons,
    applyDirectivePattern_some [] ("/reasoning " ++ v ++ " hello") matchReasoning
      "hello".data hm]
  rw [htake, htrim]
  rfl

theorem matchElevated_hit (v w : String) (R : List Char)
    (hw : w ∈ elevatedModes) (hmap : v.data.map Char.toLower = w.data) :
    matchElevated ('/' :: ("elevated".data ++ (' ' :: (v.data ++ ' ' :: R)))) =
      some (R.dropWhile Char.isWhitespace) := by
  show altCI ["elevated", "elev"]
      ("elevated".data ++ (' ' :: (v.data ++ ' ' :: R)))
      (fun r =>
        match wsPlus r with
        | some r1 => altCI elevatedModes r1 wsPlus
        | none => none) = some (R.dropWhile Char.isWhitespace)
  fin_cases hw
  · exact matchShape_eval "elevated" ["elev"] elevatedModes v "on" R
      [] ["off", "ask", "full"] (by decide) hmap
      (by decide) (by decide) (by decide) (by simp) (by simp)
  · exact matchShape_eval "elevated" ["elev"] elevatedModes v "off" R
      ["on"] ["ask", "full"] (by decide) hmap
      (by decide) (by decide) (by decide) (by decide)
      (by intro p hp
          fin_cases hp
          exact not_prefix_of_sep _ _ _ (by decide) (by decide))
  · exact matchShape_eval "elevated" ["elev"] elevatedModes v "ask" R
      ["on", "off"] ["full"] (by decide) hmap
      (by decide) (by decide) (by decide) (by decide)
      (by intro p hp
          fin_cases hp <;> exact not_prefix_of_sep _ _ _ (by decide) (by decide))
  · exact matchShape_eval "elevated" ["elev"] elevatedModes v "full" R
      ["on", "off", "ask"] [] (by decide) hmap
      (by decide) (by decide) (by decide) (by decide)
      (by intro p hp
          fin_cases hp <;> exact not_prefix_of_sep _ _ _ (by decide) (by decide))

theorem c9_elevated (v w : String) (hw : w ∈ elevatedModes) (hv : jsToLower v = w)
    (hwne : w.data ≠ []) (hwnws : ∀ c ∈ w.data, c.isWhitespace = false) :
    extractDirectives ("/elevated " ++ v ++ " hello") =
      { directives := ["/elevated " ++ v], cleanMessage := "hello" } := by
  have hmap : v.data.map Char.toLower = w.data := congrArg String.data hv
  have hm : matchElevated (("/elevated " ++ v ++ " hello").data) =
      some ("hello".data) :=
    matchElevated_hit v w "hello".data hw hmap
  have htake : ("/elevated " ++ v ++ " hello").data.take
      (("/elevated " ++ v ++ " hello").data.length - "hello".data.length) =
      ("/elevated ".data ++ v.data) ++ [' '] := by
    have hshape : ("/elevated " ++ v ++ " hello").data =
        ("/elevated ".data ++ v.data) ++ (' ' :: "hello".data) := rfl
    rw [hshape]
    have hidx : ((("/elevated ".data ++ v.data) ++ (' ' :: "hello".data)).length -
        "hello".data.length) = ("/elevated ".data ++ v.data).length + 1 := by
      simp only [List.length_append, List.length_cons]
      omega
    rw [hidx]
    exact take_append_one _ _ _
  have htrim : jsTrim (String.mk (("/elevated ".data ++ v.data) ++ [' '])) =
      "/elevated " ++ v := by
    show String.mk (trimChars (("/elevated ".data ++ v.data) ++ [' '])) =
      "/elevated " ++ v
    rw [trim_directive "/elevated ".data v.data w.data (by decide) (by decide)
      hmap hwne hwnws]
    exact String.ext (by rw [String.data_append])
  unfold extractDirectives
  dsimp only
  unfold directivePatterns
  rw [List.foldl_cons,
    applyDirectivePattern_none [] ("/elevated " ++ v ++ " hello") matchThink rfl]
  rw [List.foldl_cons,
    applyDirectivePattern_none [] ("/elevated " ++ v ++ " hello") matchVerbose rfl]
  rw [List.foldl_cons,
    applyDirectivePattern_none [] ("/elevated " ++ v ++ " hello") matchReasoning rfl]
  rw [List.foldl_cons,
    applyDirectivePattern_some [] ("/elevated " ++ v ++ " hello") matchElevated
      "hello".data hm]
  rw [htake, htrim]
  rfl

/-- C9: round trip between the validators and the directive extractor: every
value the mode-setting validators accept (think-depth, verbosity,
reasoning-display, elevation accept exactly the strings whose lower-casing is
in their set), placed between the command's token and a following word, is
matched by the extractor's corresponding pattern and recognized as that
directive — the directive is the token plus the value, and the following word
is the clean remainder. -/
theorem claim_C9 (v : String) :
    (jsToLower v ∈ thinkLevels →
      extractDirectives ("/think " ++ v ++ " hello") =
        { directives := ["/think " ++ v], cleanMessage := "hello" }) ∧
    (jsToLower v ∈ verboseModes →
      extractDirectives ("/verbose " ++ v ++ " hello") =
        { directives := ["/verbose " ++ v], cleanMessage := "hello" }) ∧
    (jsToLower v ∈ reasoningModes →
      extractDirectives ("/reasoning " ++ v ++ " hello") =
        { directives := ["/reasoning " ++ v], cleanMessage := "hello" }) ∧
    (jsToLower v ∈ elevatedModes →
      extractDirectives ("/elevated " ++ v ++ " hello") =
        { directives := ["/elevated " ++ v], cleanMessage := "hello" }) := by
  refine ⟨?_, ?_, ?_, ?_⟩
  · intro hv
    have hd : jsToLower v = "off" ∨ jsToLower v = "minimal" ∨ jsToLower v = "low" ∨
        jsToLower v = "medium" ∨ jsToLower v = "high" ∨ jsToLower v = "xhigh" := by
      simpa [thinkLevels] using hv
    rcases hd with h | h | h | h | h | h
    · exact c9_think v "off" (by decide) h (by decide) (by decide)
    · exact c9_think v "minimal" (by decide) h (by decide) (by decide)
    · exact c9_think v "low" (by decide) h (by decide) (by decide)
    · exact c9_think v "medium" (by decide) h (by decide) (by decide)
    · exact c9_think v "high" (by decide) h (by decide) (by decide)
    · exact c9_think v "xhigh" (by decide) h (by decide) (by decide)
  · intro hv
    have hd : jsToLower v = "on" ∨ jsToLower v = "full" ∨ jsToLower v = "off" := by
      simpa [verboseModes] using hv
    rcases hd with h | h | h
    · exact c9_verbose v "on" (by decide) h (by decide) (by decide)
    · exact c9_verbose v "full" (by decide) h (by decide) (by decide)
    · exact c9_verbose v "off" (by decide) h (by decide) (by decide)
  · intro hv
    have hd : jsToLower v = "on" ∨ jsToLower v = "off" ∨ jsToLower v = "stream" := by
      simpa [reasoningModes] using hv
    rcases hd with h | h | h
    · exact c9_reasoning v "on" (by decide) h (by decide) (by decide)
    · exact c9_reasoning v "off" (by decide) h (by decide) (by decide)
    · exact c9_reasoning v "stream" (by decide) h (by decide) (by decide)
  · intro hv
    have hd : jsToLower v = "on" ∨ jsToLower v = "off" ∨ jsToLower v = "ask" ∨
        jsToLower v = "full" := by
      simpa [elevatedModes] using hv
    rcases hd with h | h | h | h
    · exact c9_elevated v "on" (by decide) h (by decide) (by decide)
    · exact c9_elevated v "off" (by decide) h (by decide) (by decide)
    · exact c9_elevated v "ask" (by decide) h (by decide) (by decide)
    · exact c9_elevated v "full" (by decide) h (by decide) (by decide)

/-- Witness for C9 at concrete accepted values (including mixed case, which
the validators accept case-insensitively). -/
theorem claim_C9_witness :
    extractDirectives ("/think " ++ "HIGH" ++ " hello") =
      { directives := ["/think " ++ "HIGH"], cleanMessage := "hello" } ∧
    extractDirectives ("/verbose " ++ "on" ++ " hello") =
      { directives := ["/verbose " ++ "on"], cleanMessage := "hello" } ∧
    extractDirectives ("/reasoning " ++ "stream" ++ " hello") =
      { directives := ["/reasoning " ++ "stream"], cleanMessage := "hello" } ∧
    extractDirectives ("/elevated " ++ "Ask" ++ " hello") =
      { directives := ["/elevated " ++ "Ask"], cleanMessage := "hello" } :=
  ⟨(claim_C9 "HIGH").1 (by decide), (claim_C9 "on").2.1 (by decide),
   (claim_C9 "stream").2.2.1 (by decide), (claim_C9 "Ask").2.2.2 (by decide)⟩

/-- C10: in both the synchronous and asynchronous delivery paths, the pairing
branch is taken exactly when the raw, untrimmed, lower-cased utterance starts
with the literal prefix "/pair".  The token "/paired x", which merely begins
with that prefix, is routed to pairing (code "x"); the utterance " /pair"
with leading whitespace bypasses the pairing branch and — because
`handleCommand` reports "/pair" as not handled — falls through to chat
handling. -/
theorem claim_C10 (env : WebhookEnv) (kakaoId : String) :
    (handleWithoutCallback env kakaoId "/paired x" =
      createTextResponse
        (if (env.verifyPairingCode kakaoId "x" none).success
         then (env.verifyPairingCode kakaoId "x" none).message
         else "❌ " ++ (env.verifyPairingCode kakaoId "x" none).message)) ∧
    (processMessageAsync env kakaoId "/paired x" =
      (if (env.verifyPairingCode kakaoId "x" none).success
       then Delivery.callback (env.verifyPairingCode kakaoId "x" none).message
         [{ label := "시작하기", message := "안녕하세요!" },
          { label := "도움말", message := "/help" }]
       else Delivery.callback
         ("❌ " ++ (env.verifyPairingCode kakaoId "x" none).message) [])) ∧
    (env.isUserVerified kakaoId = true →
      handleWithoutCallback env kakaoId " /pair" =
        createTextResponse (askClawdbot env.bridgeEnv " /pair" kakaoId
          (env.getConversationHistory kakaoId)).text) ∧
    (env.isUserVerified kakaoId = true →
      processMessageAsync env kakaoId " /pair" =
        .callback (askClawdbot env.bridgeEnv " /pair" kakaoId
            (env.getConversationHistory kakaoId)).text
          [{ label := "계속", message := "계속해주세요" },
           { label := "새 주제", message := "/clear" }]) := by
  refine ⟨?_, ?_, ?_, ?_⟩
  · rfl
  · rfl
  · intro hv
    unfold handleWithoutCallback
    dsimp only
    rw [if_neg (by decide), hv, if_neg (by simp), if_pos (by decide)]
    rw [handleCommand_pair_unhandled env.cmdEnv " /pair" kakaoId (by decide)]
  · intro hv
    unfold processMessageAsync
    dsimp only
    rw [if_neg (by decide), hv, if_neg (by simp), if_pos (by decide)]
    rw [handleCommand_pair_unhandled env.cmdEnv " /pair" kakaoId (by decide)]

/-- Witness for C10 over the concrete webhook environment: the pairing store
rejects "x" (echoing it), and the chat backend's timeout fallback is the
delivered reply for " /pair". -/
theorem claim_C10_witness :
    handleWithoutCallback webhookEnvW "u" "/paired x" =
      createTextResponse
        (if (webhookEnvW.verifyPairingCode "u" "x" none).success
         then (webhookEnvW.verifyPairingCode "u" "x" none).message
         else "❌ " ++ (webhookEnvW.verifyPairingCode "u" "x" none).message) ∧
    handleWithoutCallback webhookEnvW "u" " /pair" =
      createTextResponse (askClawdbot webhookEnvW.bridgeEnv " /pair" "u"
        (webhookEnvW.getConversationHistory "u")).text ∧
    processMessageAsync webhookEnvW "u" " /pair" =
      .callback (askClawdbot webhookEnvW.bridgeEnv " /pair" "u"
          (webhookEnvW.getConversationHistory "u")).text
        [{ label := "계속", message := "계속해주세요" },
         { label := "새 주제", message := "/clear" }] :=
  ⟨(claim_C10 webhookEnvW "u").1,
   (claim_C10 webhookEnvW "u").2.2.1 rfl,
   (claim_C10 webhookEnvW "u").2.2.2 rfl⟩

end Clawdbot
